import Mathlib

/-!
Shallow embedding of the hash-join execution core of
`src/Interpreters/HashJoin.cpp` (plus `src/Interpreters/NullableUtils.cpp`),
together with proofs settling the claims about it.

Conventions of the embedding:
* machine integers become `Nat` (the only overflow-relevant bound, the
  `uint32_t` row-index limit, is handled explicitly);
* a column is represented by the data the join core actually reads from it;
* C++ exceptions become explicit `Except`/error results, and functions that
  mutate state return the mutated state even on the error paths (matching the
  fact that a C++ throw leaves already-performed mutations in place);
* hash tables become association lists in insertion order; the "offset"
  (bucket ordinal) of an entry, used to index the used-flags storage, is its
  position + 1 (position 0 models the zero-value cell of the real table).
-/

namespace HashJoinModel

/-- `ASTTableJoin::Kind` as used by `HashJoin`. -/
inductive JoinKind
  | Inner
  | Left
  | Right
  | Full
  | Cross
deriving DecidableEq, Fintype

/-- `ASTTableJoin::Strictness` as used by `HashJoin`. -/
inductive JoinStrictness
  | RightAny
  | Any
  | All
  | Asof
  | Semi
  | Anti
deriving DecidableEq, Fintype

/-- `HashJoin::Type`: the tagged map-variant selector. -/
inductive HJType
  | EMPTY
  | CROSS
  | DICT
  | key8
  | key16
  | key32
  | key64
  | keys128
  | keys256
  | key_string
  | key_fixed_string
  | hashed
deriving DecidableEq

/-- The error codes raised by the modelled paths. -/
inductive ErrorCode
  | NOT_IMPLEMENTED
  | LOGICAL_ERROR
  | SET_SIZE_LIMIT_EXCEEDED
  | UNSUPPORTED_JOIN_KEYS
  | INCOMPATIBLE_TYPE_OF_JOIN
deriving DecidableEq, Fintype

deriving instance DecidableEq for Except

/-- Modelled from the spec: predicate `isRightOrFull` of
`ASTTablesInSelectQuery.h` (not under src/); spec section 4.8 and invariant 3
use it as "kind is Right or Full". -/
def isRightOrFull (k : JoinKind) : Bool :=
  k == JoinKind.Right || k == JoinKind.Full

/-- Modelled from the spec: predicate `isInnerOrRight` of
`ASTTablesInSelectQuery.h` (not under src/): kind is Inner or Right. -/
def isInnerOrRight (k : JoinKind) : Bool :=
  k == JoinKind.Inner || k == JoinKind.Right

/-- Modelled from the spec: `MapGetter<KIND, STRICTNESS>::flagged` of
`joinDispatch.h` (not under src/).  Spec invariant 5: Any/RightAny + Left
never allocates used-flags; All/Full/Right/Semi-Right/Anti-Right do; and the
probe algorithm of spec section 4.6 gives Any + Inner set-used-once
semantics, which needs flags. -/
def mapGetterFlagged (k : JoinKind) (s : JoinStrictness) : Bool :=
  (isRightOrFull k && !(s == JoinStrictness.Asof))
    || (k == JoinKind.Inner && s == JoinStrictness.Any)

/-- Modelled from the spec: whether `MapGetter<KIND, STRICTNESS>::Map` is the
single-`RowRef`-mapped family (`MapsOne`) rather than the chain-mapped one
(`MapsAll`), from spec sections 3 and 4.6: All is chain-mapped everywhere;
Any and Semi are chain-mapped on the Right/Full side (the probe appends the
whole chain there) and single-mapped otherwise; RightAny is single-mapped;
Anti is single-mapped on the Left side and chain-mapped on the Right. -/
def mapGetterOne (k : JoinKind) (s : JoinStrictness) : Bool :=
  match s with
  | JoinStrictness.RightAny => true
  | JoinStrictness.Any => !(isRightOrFull k)
  | JoinStrictness.All => false
  | JoinStrictness.Asof => false
  | JoinStrictness.Semi => !(k == JoinKind.Right)
  | JoinStrictness.Anti => !(k == JoinKind.Right)

/-! ## JoinFeatures (HashJoin.cpp lines 946-966) -/

/-- `JoinFeatures::need_replication`. -/
def needReplication (k : JoinKind) (s : JoinStrictness) : Bool :=
  s == JoinStrictness.All
    || (s == JoinStrictness.Any && k == JoinKind.Right)
    || (s == JoinStrictness.Semi && k == JoinKind.Right)

/-- `JoinFeatures::need_filter`. -/
def needFilterFeature (k : JoinKind) (s : JoinStrictness) : Bool :=
  !needReplication k s
    && (k == JoinKind.Inner || k == JoinKind.Right
        || (s == JoinStrictness.Semi && k == JoinKind.Left)
        || (s == JoinStrictness.Anti && k == JoinKind.Left))

/-- `JoinFeatures::add_missing`. -/
def addMissing (k : JoinKind) (s : JoinStrictness) : Bool :=
  (k == JoinKind.Left || k == JoinKind.Full) && !(s == JoinStrictness.Semi)

/-- `JoinFeatures::need_flags` (`MapGetter<KIND, STRICTNESS>::flagged`). -/
def needFlags (k : JoinKind) (s : JoinStrictness) : Bool :=
  mapGetterFlagged k s

/-! ## Key method chooser (HashJoin::chooseMethod, lines 312-369)

A raw key column is represented by the properties `chooseMethod` queries. -/

/-- One raw key column handle, as observed by `chooseMethod`:
`isFixedAndContiguous`, `sizeOfValueIfFixed`, `isNumeric`, and whether it is
a `ColumnString` (or a const column wrapping one) or a `ColumnFixedString`. -/
structure KeyCol where
  fixedContiguous : Bool
  sizeOfValueIfFixed : Nat
  numeric : Bool
  stringCol : Bool
  fixedStringCol : Bool
deriving DecidableEq

instance : Inhabited KeyCol :=
  ⟨⟨false, 0, false, false, false⟩⟩

/-- The `all_fixed` / `keys_bytes` scan of `chooseMethod` (lines 319-331),
including the `break` on the first non-fixed column: the byte counter is
left partial in that case (it is only consulted when `all_fixed`). -/
def scanFixed : List KeyCol → Bool × Nat
  | [] => (true, 0)
  | c :: cs =>
    if !c.fixedContiguous then (false, 0)
    else
      let r := scanFixed cs
      (r.1, c.sizeOfValueIfFixed + r.2)

/-- `HashJoin::chooseMethod` (lines 312-369), translated branch for branch;
the `throw` of the unexpected-numeric-width case becomes `Except.error`. -/
def chooseMethod (key_columns : List KeyCol) : Except ErrorCode HJType :=
  match key_columns with
  | [] => Except.ok HJType.CROSS
  | c :: cs =>
    let af := scanFixed (c :: cs)
    let all_fixed := af.1
    let keys_bytes := af.2
    if cs.isEmpty && c.numeric then
      let size_of_field := c.sizeOfValueIfFixed
      if size_of_field = 1 then Except.ok HJType.key8
      else if size_of_field = 2 then Except.ok HJType.key16
      else if size_of_field = 4 then Except.ok HJType.key32
      else if size_of_field = 8 then Except.ok HJType.key64
      else if size_of_field = 16 then Except.ok HJType.keys128
      else if size_of_field = 32 then Except.ok HJType.keys256
      else Except.error ErrorCode.LOGICAL_ERROR
    else if all_fixed && keys_bytes ≤ 16 then Except.ok HJType.keys128
    else if all_fixed && keys_bytes ≤ 32 then Except.ok HJType.keys256
    else if cs.isEmpty && c.stringCol then Except.ok HJType.key_string
    else if cs.isEmpty && c.fixedStringCol then Except.ok HJType.key_fixed_string
    else Except.ok HJType.hashed

/-- The claim's description of the chooser, written from its words in the
order they are stated: zero columns give CROSS; exactly one numeric column
gives key8/16/32/64 for widths 1/2/4/8 and keys128/keys256 for widths 16/32,
any other numeric width is a logical error; otherwise all-fixed columns with
total bytes at most 16 (resp. 32) give keys128 (resp. keys256); a single
string column gives key_string; a single fixed-string column gives
key_fixed_string; every other combination gives hashed. -/
def chooseMethodSpec (key_columns : List KeyCol) : Except ErrorCode HJType :=
  if key_columns.length = 0 then Except.ok HJType.CROSS
  else if key_columns.length = 1 ∧ (key_columns.headI).numeric then
    let w := (key_columns.headI).sizeOfValueIfFixed
    if w = 1 then Except.ok HJType.key8
    else if w = 2 then Except.ok HJType.key16
    else if w = 4 then Except.ok HJType.key32
    else if w = 8 then Except.ok HJType.key64
    else if w = 16 then Except.ok HJType.keys128
    else if w = 32 then Except.ok HJType.keys256
    else Except.error ErrorCode.LOGICAL_ERROR
  else if key_columns.all (·.fixedContiguous)
      ∧ (key_columns.map (·.sizeOfValueIfFixed)).sum ≤ 16 then
    Except.ok HJType.keys128
  else if key_columns.all (·.fixedContiguous)
      ∧ (key_columns.map (·.sizeOfValueIfFixed)).sum ≤ 32 then
    Except.ok HJType.keys256
  else if key_columns.length = 1 ∧ (key_columns.headI).stringCol then
    Except.ok HJType.key_string
  else if key_columns.length = 1 ∧ (key_columns.headI).fixedStringCol then
    Except.ok HJType.key_fixed_string
  else Except.ok HJType.hashed

/-! ## Non-joined stream construction (lines 2029-2038) -/

/-- `HashJoin::createStreamWithNonJoinedRows` (lines 2029-2038), reduced to
whether a stream is returned: Asof or Semi strictness return nothing, then a
stream is built exactly when the kind is Right or Full. -/
def createStreamWithNonJoinedRows (k : JoinKind) (s : JoinStrictness) : Bool :=
  if s == JoinStrictness.Asof || s == JoinStrictness.Semi then false
  else if isRightOrFull k then true
  else false

/-! ## Dictionary-backed probe dispatch (HashJoin::joinBlock, lines 1716-1789) -/

/-- Outcome of `HashJoin::joinBlock` as far as kind/strictness acceptance on
a DICT-variant instance is concerned: the Cross kind short-circuits into the
cross-join path before the dictionary check; otherwise the dictionary branch
either dispatches to `joinBlockImpl`/`dictionaryJoinRightColumns` with some
effective (template) kind/strictness pair, or throws a logical error. -/
inductive DictProbeResult
  | crossPath
  | dispatched (k : JoinKind) (s : JoinStrictness)
  | err (e : ErrorCode)
deriving DecidableEq

/-- `HashJoin::joinBlock` on an `overDictionary()` instance (lines 1716-1789):
the kind/strictness switch, recording which template combination each case
dispatches to.  Left Any and Left All both run as (Left, Any); Left Semi and
Left Anti run as themselves; Inner All runs as (Left, Semi); everything else
throws `LOGICAL_ERROR`. -/
def joinBlockOverDictionary (k : JoinKind) (s : JoinStrictness) : DictProbeResult :=
  if k == JoinKind.Cross then DictProbeResult.crossPath
  else if k == JoinKind.Left then
    match s with
    | JoinStrictness.Any => DictProbeResult.dispatched JoinKind.Left JoinStrictness.Any
    | JoinStrictness.All => DictProbeResult.dispatched JoinKind.Left JoinStrictness.Any
    | JoinStrictness.Semi => DictProbeResult.dispatched JoinKind.Left JoinStrictness.Semi
    | JoinStrictness.Anti => DictProbeResult.dispatched JoinKind.Left JoinStrictness.Anti
    | _ => DictProbeResult.err ErrorCode.LOGICAL_ERROR
  else if k == JoinKind.Inner && s == JoinStrictness.All then
    DictProbeResult.dispatched JoinKind.Left JoinStrictness.Semi
  else DictProbeResult.err ErrorCode.LOGICAL_ERROR

/-! ## Right-side build maps (Inserter, HashJoin.cpp lines 544-616) -/

/-- `RowRef`: a stable reference `(stored block, row index)` into the right
storage.  Block identity is modelled as the index of the stored block. -/
structure RowRefM where
  block : Nat
  row : Nat
deriving DecidableEq

/-- A map variant as an association list in insertion order: encoded key to
the mapped value (a single `RowRef` for the `MapsOne` family kept as a
one-element chain, a `RowRefList` chain for the `MapsAll` family; modelled
from the spec, sections 3 and 5: within one key, rows are kept in ingestion
order, the head being the first inserted; `RowRefs.h` is not under src/). -/
abbrev BuildMap := List (Nat × List RowRefM)

/-- All rows stored in a map, over all keys. -/
def rowsOfMap : BuildMap → List RowRefM
  | [] => []
  | kv :: rest => kv.2 ++ rowsOfMap rest

/-- `Inserter::insertOne` (lines 550-557): emplace the key; on fresh
insertion, or when `any_take_last_row`, (re)write the mapped single row. -/
def insertOne (atlr : Bool) : BuildMap → Nat → RowRefM → BuildMap
  | [], k, r => [(k, [r])]
  | kv :: rest, k, r =>
    if kv.1 = k then (if atlr then (kv.1, [r]) :: rest else kv :: rest)
    else kv :: insertOne atlr rest k r

/-- `Inserter::insertAll` (lines 559-570): emplace the key; the head row on
fresh insertion, otherwise one more row on the key's chain. -/
def insertAllRef : BuildMap → Nat → RowRefM → BuildMap
  | [], k, r => [(k, [r])]
  | kv :: rest, k, r =>
    if kv.1 = k then (kv.1, kv.2 ++ [r]) :: rest
    else kv :: insertAllRef rest k r

/-- Reading a combined null map at a row (`(*null_map)[i]`); `none` stands
for a null `ConstNullMapPtr` (no nullable key column). -/
def isNullAt (nm : Option (List Bool)) (i : Nat) : Bool :=
  match nm with
  | none => false
  | some l => l.getD i false

/-- Row indices paired with their key values, starting at a row index. -/
def enumFrom : Nat → List Nat → List (Nat × Nat)
  | _, [] => []
  | i, k :: ks => (i, k) :: enumFrom (i + 1) ks

/-- The row loop of `insertFromBlockImplTypeCase` (lines 599-614) over
(row index, key value) pairs: null-keyed rows are skipped; single-mapped
variants use `insertOne`, chain-mapped ones `insertAll`.  (The Asof insert
path is not modelled; no claim involves Asof ingestion.) -/
def insertRowsGo (mapped_one atlr : Bool) (blkid : Nat) (nm : Option (List Bool)) :
    BuildMap → List (Nat × Nat) → BuildMap
  | m, [] => m
  | m, p :: ps =>
    if isNullAt nm p.1 then insertRowsGo mapped_one atlr blkid nm m ps
    else
      let r : RowRefM := ⟨blkid, p.1⟩
      let m2 := if mapped_one then insertOne atlr m p.2 r else insertAllRef m p.2 r
      insertRowsGo mapped_one atlr blkid nm m2 ps

/-- `insertFromBlockImplTypeCase` (lines 585-616). -/
def insertFromBlockImplTypeCase (mapped_one atlr : Bool) (m : BuildMap)
    (keys : List Nat) (nm : Option (List Bool)) (blkid : Nat) : BuildMap :=
  insertRowsGo mapped_one atlr blkid nm m (enumFrom 0 keys)

/-- `insertFromBlockImpl` (lines 629-649): the EMPTY/CROSS/DICT sentinels
insert nothing and report 0 cells; the real variants insert and report the
table's cell count — modelled as the number of occupied keys, consistently
with the probe-side bucket ordinals. -/
def insertFromBlockImplM (ty : HJType) (mapped_one atlr : Bool) (m : BuildMap)
    (keys : List Nat) (nm : Option (List Bool)) (blkid : Nat) : BuildMap × Nat :=
  match ty with
  | HJType.EMPTY => (m, 0)
  | HJType.CROSS => (m, 0)
  | HJType.DICT => (m, 0)
  | _ =>
    let m2 := insertFromBlockImplTypeCase mapped_one atlr m keys nm blkid
    (m2, m2.length)

/-! ## Cross join (HashJoin::joinBlockImplCross, lines 1566-1645)

Only the row bookkeeping is modelled: a right block is its row count, and an
output row is the triple (left row, right block index, right row index) that
the columnar appends of lines 1620-1627 produce. -/

/-- `NotProcessedCrossJoin` (lines 51-55): the parked continuation. -/
structure CrossCont where
  left_position : Nat
  right_block : Nat
deriving DecidableEq

/-- One emitted cross-join row: (left row, right block index, right row). -/
abbrev CrossRow := Nat × Nat × Nat

/-- The inner loop over right blocks (lines 1610-1628) for one left row:
`block_number` counts from 1 (modelled as `idx + 1`) and blocks with
`block_number < start_right_block` are skipped; each processed block emits
`rows_right` copies of the left row against its rows 0..rows_right-1. -/
def crossInner (left_row : Nat) (start_right_block : Nat) :
    Nat → List Nat → List CrossRow
  | _, [] => []
  | idx, nrows :: rest =>
    if idx + 1 < start_right_block then
      crossInner left_row start_right_block (idx + 1) rest
    else
      (List.range nrows).map (fun r => (left_row, idx, r))
        ++ crossInner left_row start_right_block (idx + 1) rest

/-- The outer loop over left rows (lines 1608-1639): after each complete
left row, `start_right_block` resets to 0 and the cap is checked; when
`rows_added` exceeds `max_joined_block_rows`, a continuation holding the
current left row and `block_number + 1` (one past the last right block) is
parked and the loop breaks. -/
def crossOuter (rightBlocks : List Nat) (max_joined_block_rows : Nat) :
    List Nat → Nat → Nat → List CrossRow × Option CrossCont
  | [], _, _ => ([], none)
  | left_row :: restRows, start_right_block, rows_added =>
    let emitted := crossInner left_row start_right_block 0 rightBlocks
    let rows_added2 := rows_added + emitted.length
    if max_joined_block_rows < rows_added2 then
      (emitted, some ⟨left_row, rightBlocks.length + 1⟩)
    else
      let r := crossOuter rightBlocks max_joined_block_rows restRows 0 rows_added2
      (emitted ++ r.1, r.2)

/-- `HashJoin::joinBlockImplCross` (lines 1566-1645): resume from the parked
continuation if any, then run the nested loops. -/
def joinBlockImplCross (rightBlocks : List Nat) (rows_left : Nat)
    (max_joined_block_rows : Nat) (not_processed : Option CrossCont) :
    List CrossRow × Option CrossCont :=
  let start_left_row := match not_processed with
    | some c => c.left_position
    | none => 0
  let start_right_block := match not_processed with
    | some c => c.right_block
    | none => 0
  crossOuter rightBlocks max_joined_block_rows
    ((List.range rows_left).drop start_left_row) start_right_block 0

/-- Repeated `joinBlockImplCross` calls, feeding each parked continuation
into the next call (as the surrounding pipeline does with `not_processed`);
`fuel` bounds the number of calls. -/
def crossCalls (rightBlocks : List Nat) (rows_left max_joined_block_rows : Nat) :
    Nat → Option CrossCont → List (List CrossRow)
  | 0, _ => []
  | fuel + 1, cont =>
    let r := joinBlockImplCross rightBlocks rows_left max_joined_block_rows cont
    match r.2 with
    | none => [r.1]
    | some c =>
      r.1 :: crossCalls rightBlocks rows_left max_joined_block_rows fuel (some c)

/-- The full cross product in (left row, right block, right row) order. -/
def fullCrossProduct (rightBlocks : List Nat) (rows_left : Nat) : List CrossRow :=
  (List.range rows_left).flatMap (fun l => crossInner l 0 0 rightBlocks)

/-! ## Ingestion (HashJoin::addJoinedBlock, lines 698-829) -/

/-- An incoming right block, as the ingestor reads it: a row count, and for
each disjunct the materialized key column values and the combined null map
produced by `extractNestedColumnsAndNullMap` (NullableUtils.cpp; `none`
when no key column of the disjunct is nullable). -/
structure InBlock where
  rows : Nat
  disjKeys : List (List Nat)
  disjNulls : List (Option (List Bool))
deriving DecidableEq

/-- The parts of a `HashJoin` instance touched by the modelled operations.
`maxRows` models `TableJoin::sizeLimits()` (not under src/): modelled from
the spec, "max rows / max bytes for the build side", violation failing with
`SetSizeLimitExceeded`; `none` is "no limit", and only the row limit is
modelled. -/
structure HJState where
  hjType : HJType
  kind : JoinKind
  strictness : JoinStrictness
  anyTakeLastRow : Bool
  maxRows : Option Nat
  maps : List BuildMap
  /-- `data->blocks`, each stored block as its row count (index = block id). -/
  blocks : List Nat
  /-- `data->blocks_nullmaps`: (block id, combined null map over all keys). -/
  blocksNullmaps : List (Nat × List Bool)
  /-- length of `used_flags.flags`; `none` models "never allocated". -/
  usedFlagsLen : Option Nat
  /-- `data->empty`. -/
  emptyFlag : Bool
  /-- whether `storage_join_lock` holds a mutex (line 782). -/
  lockHeld : Bool
deriving DecidableEq

/-- `HashJoin::getTotalRowCount` (lines 502-520). -/
def getTotalRowCount (st : HJState) : Nat :=
  if st.hjType == HJType.CROSS then st.blocks.sum
  else if st.hjType == HJType.DICT then 0
  else (st.maps.map (fun m => (rowsOfMap m).length)).sum

/-- Whether a combined null map flags at least one row (the `save_nullmap`
accumulation loop, lines 774-777). -/
def anyNullIn (nm : Option (List Bool)) : Bool :=
  match nm with
  | none => false
  | some l => l.any (fun b => b)

/-- The combined null map over the key columns of all disjuncts
(`extractNestedColumnsAndNullMap(all_key_columns, ...)`, line 823, with
NullableUtils.cpp): a row is flagged iff some nullable key column is null
there — the OR of the per-disjunct combined maps, since every key column
occurs in some disjunct. -/
def orNullmaps (rows : Nat) (nms : List (Option (List Bool))) : List Bool :=
  nms.foldl
    (fun acc nm =>
      match nm with
      | none => acc
      | some l => acc.zipWith (fun a b => a || b) l)
    (List.replicate rows false)

/-- Outcome of the per-disjunct loop of `addJoinedBlock` (lines 763-816):
an exception, the in-loop `return true` taken when `check_limits` is false
(line 809-810), or normal completion with the `save_a_nullmap` flag. -/
inductive AddLoopOut
  | err (e : ErrorCode) (st : HJState)
  | early (st : HJState)
  | fin (st : HJState) (save_a_nullmap : Bool)

/-- The state carried by a loop outcome. -/
def AddLoopOut.state : AddLoopOut → HJState
  | AddLoopOut.err _ st => st
  | AddLoopOut.early st => st
  | AddLoopOut.fin st _ => st

/-- One iteration body of the per-disjunct loop (lines 793-807): insert
into `maps[d]` (unless the kind is Cross) and re-initialize the used-flags
storage to cell count + 1 when the shape is flagged. -/
def addLoopStep (blkid : Nat) (blk : InBlock) (d : Nat) (st : HJState) : HJState :=
  if st.kind == JoinKind.Cross then st
  else
    let keys := blk.disjKeys.getD d []
    let nm := blk.disjNulls.getD d none
    let res := insertFromBlockImplM st.hjType
        (mapGetterOne st.kind st.strictness) st.anyTakeLastRow
        (st.maps.getD d []) keys nm blkid
    let stm := { st with maps := st.maps.set d res.1 }
    if mapGetterFlagged st.kind st.strictness then
      { stm with usedFlagsLen := some (res.2 + 1) }
    else stm

/-- The per-disjunct loop of `addJoinedBlock` (lines 763-816): compute the
disjunct's `save_nullmap` contribution, check the update lock, run the
iteration body, and return early when `check_limits` is false. -/
def addLoopGo (cl : Bool) (blkid : Nat) (blk : InBlock) :
    List Nat → HJState → Bool → AddLoopOut
  | [], st, sv => AddLoopOut.fin st sv
  | d :: rest, st, sv =>
    let sv2 := sv || (isRightOrFull st.kind && anyNullIn (blk.disjNulls.getD d none))
    if st.lockHeld then AddLoopOut.err ErrorCode.LOGICAL_ERROR st
    else
      let st2 := addLoopStep blkid blk d st
      if !cl then AddLoopOut.early st2
      else addLoopGo cl blkid blk rest st2 sv2

/-- The net effect of the loop iteration for disjunct `d` on that disjunct's
map, as a function of the instance configuration (used to characterize the
loop; the kind is assumed not Cross). -/
def disjunctMapUpdate (ty : HJType) (k : JoinKind) (s : JoinStrictness)
    (atlr : Bool) (blkid : Nat) (blk : InBlock) (d : Nat) (m : BuildMap) : BuildMap :=
  (insertFromBlockImplM ty (mapGetterOne k s) atlr m
      (blk.disjKeys.getD d []) (blk.disjNulls.getD d none) blkid).1

/-- `std::numeric_limits<RowRef::SizeT>::max()` — `RowRef::SizeT` is
`uint32_t` (comment at line 707). -/
def u32max : Nat := 4294967295

/-- The mutations of `addJoinedBlock` done before the per-disjunct loop:
the structured block appended to the storage, `data->empty` cleared when the
block has rows (lines 755-759). -/
def appendBlockState (st : HJState) (blk : InBlock) : HJState :=
  if blk.rows ≠ 0 then
    { st with blocks := st.blocks ++ [blk.rows], emptyFlag := false }
  else { st with blocks := st.blocks ++ [blk.rows] }

/-- The tail of `addJoinedBlock` after the loop completed normally (lines
818-828): append the combined null map when some disjunct asked for it, then
the size-limits check.  The `total_rows` consulted by that check is the one
assigned in the last loop iteration, hence 0 when `check_limits` is false
(only reachable here with zero disjuncts) or when there was no iteration. -/
def addFinish (blkid : Nat) (blk : InBlock) (check_limits : Bool)
    (sto : HJState) (sv : Bool) : HJState × Except ErrorCode Bool :=
  let st3 :=
    if sv then
      { sto with blocksNullmaps :=
          sto.blocksNullmaps ++ [(blkid, orNullmaps blk.rows blk.disjNulls)] }
    else sto
  let total_rows :=
    if check_limits ∧ 0 < sto.maps.length then getTotalRowCount st3 else 0
  match st3.maxRows with
  | none => (st3, Except.ok true)
  | some mx =>
    if mx < total_rows then (st3, Except.error ErrorCode.SET_SIZE_LIMIT_EXCEEDED)
    else (st3, Except.ok true)

/-- `HashJoin::addJoinedBlock` (lines 698-829).  The returned state keeps
every mutation performed before a raised error, as a C++ throw does. -/
def addJoinedBlock (st : HJState) (blk : InBlock) (check_limits : Bool) :
    HJState × Except ErrorCode Bool :=
  if st.hjType == HJType.EMPTY then (st, Except.error ErrorCode.LOGICAL_ERROR)
  else if st.hjType == HJType.DICT then (st, Except.error ErrorCode.LOGICAL_ERROR)
  else if u32max < blk.rows then (st, Except.error ErrorCode.NOT_IMPLEMENTED)
  else
    match addLoopGo check_limits st.blocks.length blk
        (List.range (appendBlockState st blk).maps.length)
        (appendBlockState st blk) false with
    | AddLoopOut.err e sto => (sto, Except.error e)
    | AddLoopOut.early sto => (sto, Except.ok true)
    | AddLoopOut.fin sto sv => addFinish st.blocks.length blk check_limits sto sv

/-- `HashJoin::overDictionary` (lines 487-490). -/
def overDictionary (st : HJState) : Bool :=
  st.hjType == HJType.DICT

/-- `HashJoin::alwaysReturnsEmptySet` (lines 497-500). -/
def alwaysReturnsEmptySet (st : HJState) : Bool :=
  isInnerOrRight st.kind && st.emptyFlag && !overDictionary st

/-- Several `addJoinedBlock` calls in sequence, each keeping the (possibly
mutated) state of the previous one. -/
def ingestList (st : HJState) : List (InBlock × Bool) → HJState
  | [] => st
  | p :: ps => ingestList (addJoinedBlock st p.1 p.2).1 ps

/-! ## Probe (joinRightColumns, HashJoin.cpp lines 1134-1308)

Probe inputs are row-major: one entry per left row holding, per disjunct,
the row's key value under that disjunct and its combined-null-map bit. -/

/-- `findKey` against a map, returning the bucket ordinal
(`FindResult::getOffset`, used to index the used-flags storage; modelled as
position + 1, 0 being the zero-value cell) and the mapped chain. -/
def probeFindGo (off : Nat) : BuildMap → Nat → Option (Nat × List RowRefM)
  | [], _ => none
  | kv :: rest, k =>
    if kv.1 = k then some (off, kv.2) else probeFindGo (off + 1) rest k

/-- `key_getter.findKey(map, i, pool)` (line 1197), reduced to the lookup. -/
def probeFind (m : BuildMap) (k : Nat) : Option (Nat × List RowRefM) :=
  probeFindGo 1 m k

/-- `JoinUsedFlags::setUsed<use_flags>` (lines 81 and 90-94): a no-op when
the shape has no flags.  Flags are the set of claimed offsets. -/
def setUsedFlag (use_flags : Bool) (flags : List Nat) (off : Nat) : List Nat :=
  if use_flags then off :: flags else flags

/-- `JoinUsedFlags::setUsedOnce<use_flags>` (lines 87 and 100-108): always
true without flags; otherwise the load + compare-exchange pair claims the
offset, succeeding only the first time (single-threaded model). -/
def setUsedOnceFlag (use_flags : Bool) (flags : List Nat) (off : Nat) :
    Bool × List Nat :=
  if use_flags then
    if off ∈ flags then (false, flags) else (true, off :: flags)
  else (true, flags)

/-- State of `addFoundRowAll` (lines 1072-1112) while walking one chain:
rows appended so far, the bumped `current_offset`, and `new_known_rows_ptr`
— which the source fills only while it is still null (lines 1092-1096), so
it records the FIRST newly appended row's block only. -/
structure AfrState where
  emitted : List (Option RowRefM)
  curOff : Nat
  newKnown : Option (List Nat)

/-- The chain walk of `addFoundRowAll` (lines 1081-1103).
`KnownRowsHolder<false>::isKnown` is constantly false, so the known-rows
test applies only with multiple disjuncts; the dedup key is the stored
block pointer `it->block` (line 1085), not the row. -/
def addFoundRowAllGo (md : Bool) (known : List Nat) :
    List RowRefM → AfrState → AfrState
  | [], st => st
  | r :: rest, st =>
    if md && known.contains r.block then
      addFoundRowAllGo md known rest st
    else
      addFoundRowAllGo md known rest
        { emitted := st.emitted ++ [some r]
          curOff := st.curOff + 1
          newKnown :=
            if md then
              match st.newKnown with
              | none => some [r.block]
              | some l => some l
            else st.newKnown }

/-- `addFoundRowAll` (lines 1072-1112): walk the chain, then merge the
recorded blocks into the known set (lines 1105-1111).  The
`applyLazyDefaults` flush for `add_missing` shapes is modelled eagerly
(default rows are appended in order when produced), so it is a no-op
here. -/
def addFoundRowAllM (md : Bool) (chain : List RowRefM) (known : List Nat)
    (emitted : List (Option RowRefM)) (curOff : Nat) :
    List (Option RowRefM) × Nat × List Nat :=
  let st := addFoundRowAllGo md known chain ⟨emitted, curOff, none⟩
  (st.emitted, st.curOff,
    if md then known ++ (st.newKnown.getD []) else known)

/-- Per-left-row state of the probe's disjunct loop. -/
structure RowSt where
  flags : List Nat
  emitted : List (Option RowRefM)
  curOff : Nat
  known : List Nat
  filterBit : Bool
  rrf : Bool
  nef : Bool

/-- The disjunct do-while loop (lines 1182-1270) for one left row, over the
(map, key, is-null) triple of each disjunct in order.  The Asof branch
(lines 1203-1216) is not modelled: no claim involves an Asof probe.  The
`need_filter` template parameter is hard-wired true by
`joinRightColumnsSwitchMultipleDisjuncts` (lines 1317-1319), so the filter
bit is always tracked.  Branches that `break` return without recursing. -/
def probeRowGo (k : JoinKind) (s : JoinStrictness) (md : Bool) :
    List (BuildMap × Nat × Bool) → RowSt → RowSt
  | [], st => st
  | (m, key, isnull) :: rest, st =>
    if isnull then probeRowGo k s md rest { st with nef := true }
    else
      match probeFind m key with
      | none => probeRowGo k s md rest st
      | some (off, chain) =>
        let st1 := { st with rrf := true }
        if s == JoinStrictness.All then
          let st2 := { st1 with
            filterBit := true
            flags := setUsedFlag (needFlags k s) st1.flags off }
          let r := addFoundRowAllM md chain st2.known st2.emitted st2.curOff
          probeRowGo k s md rest
            { st2 with emitted := r.1, curOff := r.2.1, known := r.2.2 }
        else if (s == JoinStrictness.Any || s == JoinStrictness.Semi)
            && k == JoinKind.Right then
          let u := setUsedOnceFlag (needFlags k s) st1.flags off
          let st2 := { st1 with flags := u.2 }
          if u.1 then
            let st3 := { st2 with filterBit := true }
            let r := addFoundRowAllM md chain st3.known st3.emitted st3.curOff
            probeRowGo k s md rest
              { st3 with emitted := r.1, curOff := r.2.1, known := r.2.2 }
          else probeRowGo k s md rest st2
        else if s == JoinStrictness.Any && k == JoinKind.Inner then
          let u := setUsedOnceFlag (needFlags k s) st1.flags off
          let st2 := { st1 with flags := u.2 }
          if u.1 then
            { st2 with
              filterBit := true
              emitted := st2.emitted ++ (chain.head?.map some).toList }
          else st2
        else if s == JoinStrictness.Any && k == JoinKind.Full then
          probeRowGo k s md rest st1
        else if s == JoinStrictness.Anti then
          let st2 :=
            if k == JoinKind.Right && needFlags k s then
              { st1 with flags := setUsedFlag (needFlags k s) st1.flags off }
            else st1
          probeRowGo k s md rest st2
        else
          let st2 := { st1 with
            filterBit := true
            flags := setUsedFlag (needFlags k s) st1.flags off
            emitted := st1.emitted ++ (chain.head?.map some).toList }
          if s == JoinStrictness.Any then st2
          else probeRowGo k s md rest st2

/-- Accumulated probe outputs across left rows (filter and
offsets-to-replicate grow by one entry per row, matching the per-index
assignments of the source). -/
structure ProbeAcc where
  flags : List Nat
  emitted : List (Option RowRefM)
  filter : List Bool
  offsets : List Nat
  curOff : Nat
deriving DecidableEq

/-- One left row of `joinRightColumns` (lines 1173-1304): run the disjunct
loop — once only when `multiple_disjuncts` is false, per the do-while
condition at line 1270 — then the not-found handling (lines 1272-1303).
When replicating, `offsets_to_replicate[i]` receives the final
`current_offset` on every path. -/
def probeRow (k : JoinKind) (s : JoinStrictness) (md : Bool)
    (mapv : List BuildMap) (row : List (Nat × Bool)) (acc : ProbeAcc) :
    ProbeAcc :=
  let ds0 := List.zip mapv row
  let ds := if md then ds0 else ds0.take 1
  let st := probeRowGo k s md (ds.map (fun p => (p.1, p.2.1, p.2.2)))
    ⟨acc.flags, acc.emitted, acc.curOff, [], false, false, false⟩
  if !st.rrf && st.nef then
    let emitted2 := if addMissing k s then st.emitted ++ [none] else st.emitted
    let curOff2 :=
      if addMissing k s && needReplication k s then st.curOff + 1 else st.curOff
    { flags := st.flags
      emitted := emitted2
      filter := acc.filter ++ [st.filterBit]
      offsets :=
        if needReplication k s then acc.offsets ++ [curOff2] else acc.offsets
      curOff := curOff2 }
  else
    let fb := st.filterBit
      || (!st.rrf && s == JoinStrictness.Anti && k == JoinKind.Left)
    let emitted2 :=
      if !st.rrf && addMissing k s then st.emitted ++ [none] else st.emitted
    let curOff2 :=
      if !st.rrf && addMissing k s && needReplication k s then st.curOff + 1
      else st.curOff
    { flags := st.flags
      emitted := emitted2
      filter := acc.filter ++ [fb]
      offsets :=
        if needReplication k s then acc.offsets ++ [curOff2] else acc.offsets
      curOff := curOff2 }

/-- `joinRightColumns` (lines 1134-1308) over row-major probe data. -/
def joinRightColumns (k : JoinKind) (s : JoinStrictness) (md : Bool)
    (mapv : List BuildMap) (rowsData : List (List (Nat × Bool)))
    (flags0 : List Nat) : ProbeAcc :=
  rowsData.foldl (fun acc row => probeRow k s md mapv row acc)
    ⟨flags0, [], [], [], 0⟩

/-- What one Left Any left row emits (the amended C3 reference): the head of
the matched bucket's chain when the key is non-null and found, a default row
otherwise. -/
def leftAnyRowEmit (m : BuildMap) (p : Nat × Bool) : Option RowRefM :=
  if p.2 then none
  else
    match probeFind m p.1 with
    | none => none
    | some q => q.2.head?

/-! # Theorems -/

theorem scanFixed_fst (cols : List KeyCol) :
    (scanFixed cols).1 = cols.all (·.fixedContiguous) := by
  induction cols with
  | nil => rfl
  | cons c cs ih =>
    simp only [scanFixed, List.all_cons]
    by_cases hc : c.fixedContiguous
    · simp [hc, ih]
    · simp [hc]

theorem scanFixed_snd (cols : List KeyCol) (h : cols.all (·.fixedContiguous) = true) :
    (scanFixed cols).2 = (cols.map (·.sizeOfValueIfFixed)).sum := by
  induction cols with
  | nil => rfl
  | cons c cs ih =>
    simp only [List.all_cons, Bool.and_eq_true] at h
    simp [scanFixed, h.1, ih h.2]

/-- **C6.** The key-method chooser maps key column lists to variant tags
exactly as the claim specifies (claim read as the ordered case chain it
states): `chooseMethod` equals the chain written from the claim's words. -/
theorem c6_chooseMethod_spec (cols : List KeyCol) :
    chooseMethod cols = chooseMethodSpec cols := by
  match cols with
  | [] => simp [chooseMethod, chooseMethodSpec]
  | [c] =>
    by_cases hnum : c.numeric = true
    · simp [chooseMethod, chooseMethodSpec, hnum]
    · by_cases hcf : c.fixedContiguous = true
      · simp [chooseMethod, chooseMethodSpec, scanFixed, hnum, hcf]
      · simp [chooseMethod, chooseMethodSpec, scanFixed, hnum, hcf]
  | c :: c2 :: cs =>
    have hfst := scanFixed_fst (c :: c2 :: cs)
    by_cases haf : ((c :: c2 :: cs).all (·.fixedContiguous)) = true
    · have hsum := scanFixed_snd (c :: c2 :: cs) haf
      simp [chooseMethod, chooseMethodSpec, hfst, haf, hsum]
    · simp [chooseMethod, chooseMethodSpec, hfst, haf]

/-- **C8.** A non-joined-rows stream is returned iff the kind is Right or
Full and the strictness is neither Asof nor Semi. -/
theorem c8_createStream_iff (k : JoinKind) (s : JoinStrictness) :
    createStreamWithNonJoinedRows k s = true ↔
      (k = JoinKind.Right ∨ k = JoinKind.Full)
        ∧ s ≠ JoinStrictness.Asof ∧ s ≠ JoinStrictness.Semi := by
  cases k <;> cases s <;> decide

/-- **C9 counterexample.** The claim says only Left + Any/Semi/Anti are
accepted and everything else raises; but Left + All is accepted (it is
dispatched as Left Any), refuting the claim at that concrete input. -/
theorem c9_counterexample :
    joinBlockOverDictionary JoinKind.Left JoinStrictness.All
        = DictProbeResult.dispatched JoinKind.Left JoinStrictness.Any
      ∧ ∀ e, joinBlockOverDictionary JoinKind.Left JoinStrictness.All
        ≠ DictProbeResult.err e := by
  decide

/-- **C9 (amended).** On a DICT-variant instance, a Cross kind bypasses the
dictionary branch; otherwise the branch accepts exactly Left with
Any/All/Semi/Anti (All executed as Any) and Inner with All (executed as
Left Semi), and raises a logical error for every other combination. -/
theorem c9_dict_dispatch (k : JoinKind) (s : JoinStrictness) :
    (joinBlockOverDictionary k s = DictProbeResult.crossPath ↔ k = JoinKind.Cross)
    ∧ ((∃ k2 s2, joinBlockOverDictionary k s = DictProbeResult.dispatched k2 s2) ↔
        (k = JoinKind.Left
          ∧ (s = JoinStrictness.Any ∨ s = JoinStrictness.All
              ∨ s = JoinStrictness.Semi ∨ s = JoinStrictness.Anti))
        ∨ (k = JoinKind.Inner ∧ s = JoinStrictness.All))
    ∧ (joinBlockOverDictionary JoinKind.Left JoinStrictness.All
        = DictProbeResult.dispatched JoinKind.Left JoinStrictness.Any)
    ∧ (joinBlockOverDictionary JoinKind.Inner JoinStrictness.All
        = DictProbeResult.dispatched JoinKind.Left JoinStrictness.Semi) := by
  cases k <;> cases s <;> decide

/-! ### List helpers -/

theorem getD_set_self {α : Type} (l : List α) (i : Nat) (x d : α) (h : i < l.length) :
    (l.set i x).getD i d = x := by
  induction l generalizing i with
  | nil => simp at h
  | cons a t ih =>
    cases i with
    | zero => rfl
    | succ n =>
      simp only [List.set_cons_succ, List.getD_cons_succ]
      exact ih n (by simpa using h)

theorem getD_set_ne {α : Type} (l : List α) (i j : Nat) (x d : α) (h : i ≠ j) :
    (l.set i x).getD j d = l.getD j d := by
  induction l generalizing i j with
  | nil => rfl
  | cons a t ih =>
    cases i with
    | zero =>
      cases j with
      | zero => exact absurd rfl h
      | succ m => simp [List.getD_cons_succ]
    | succ n =>
      cases j with
      | zero => simp
      | succ m =>
        simp only [List.set_cons_succ, List.getD_cons_succ]
        exact ih n m (fun hh => h (by rw [hh]))

/-! ### The ingestion loop -/

theorem addLoopStep_fields (blkid : Nat) (blk : InBlock) (d : Nat) (st : HJState) :
    (addLoopStep blkid blk d st).blocks = st.blocks
    ∧ (addLoopStep blkid blk d st).hjType = st.hjType
    ∧ (addLoopStep blkid blk d st).kind = st.kind
    ∧ (addLoopStep blkid blk d st).strictness = st.strictness
    ∧ (addLoopStep blkid blk d st).anyTakeLastRow = st.anyTakeLastRow
    ∧ (addLoopStep blkid blk d st).emptyFlag = st.emptyFlag
    ∧ (addLoopStep blkid blk d st).maxRows = st.maxRows
    ∧ (addLoopStep blkid blk d st).blocksNullmaps = st.blocksNullmaps
    ∧ (addLoopStep blkid blk d st).lockHeld = st.lockHeld
    ∧ (addLoopStep blkid blk d st).maps.length = st.maps.length := by
  unfold addLoopStep
  split
  · simp
  · split <;> simp

theorem addLoopGo_cons_lock (cl : Bool) (blkid : Nat) (blk : InBlock) (d : Nat)
    (rest : List Nat) (st : HJState) (sv : Bool) (hl : st.lockHeld = true) :
    addLoopGo cl blkid blk (d :: rest) st sv
      = AddLoopOut.err ErrorCode.LOGICAL_ERROR st := by
  simp [addLoopGo, hl]

theorem addLoopGo_cons_false (blkid : Nat) (blk : InBlock) (d : Nat)
    (rest : List Nat) (st : HJState) (sv : Bool) (hl : st.lockHeld = false) :
    addLoopGo false blkid blk (d :: rest) st sv
      = AddLoopOut.early (addLoopStep blkid blk d st) := by
  simp [addLoopGo, hl]

theorem addLoopGo_cons_true (blkid : Nat) (blk : InBlock) (d : Nat)
    (rest : List Nat) (st : HJState) (sv : Bool) (hl : st.lockHeld = false) :
    addLoopGo true blkid blk (d :: rest) st sv
      = addLoopGo true blkid blk rest (addLoopStep blkid blk d st)
          (sv || (isRightOrFull st.kind && anyNullIn (blk.disjNulls.getD d none))) := by
  simp [addLoopGo, hl]

theorem addLoopGo_fields (cl : Bool) (blkid : Nat) (blk : InBlock) (ds : List Nat) :
    ∀ (st : HJState) (sv : Bool),
      ((addLoopGo cl blkid blk ds st sv).state).blocks = st.blocks
      ∧ ((addLoopGo cl blkid blk ds st sv).state).hjType = st.hjType
      ∧ ((addLoopGo cl blkid blk ds st sv).state).kind = st.kind
      ∧ ((addLoopGo cl blkid blk ds st sv).state).strictness = st.strictness
      ∧ ((addLoopGo cl blkid blk ds st sv).state).anyTakeLastRow = st.anyTakeLastRow
      ∧ ((addLoopGo cl blkid blk ds st sv).state).emptyFlag = st.emptyFlag
      ∧ ((addLoopGo cl blkid blk ds st sv).state).maxRows = st.maxRows
      ∧ ((addLoopGo cl blkid blk ds st sv).state).blocksNullmaps = st.blocksNullmaps
      ∧ ((addLoopGo cl blkid blk ds st sv).state).lockHeld = st.lockHeld
      ∧ ((addLoopGo cl blkid blk ds st sv).state).maps.length = st.maps.length := by
  induction ds with
  | nil => intro st sv; exact ⟨rfl, rfl, rfl, rfl, rfl, rfl, rfl, rfl, rfl, rfl⟩
  | cons d rest ih =>
    intro st sv
    by_cases hl : st.lockHeld = true
    · rw [addLoopGo_cons_lock cl blkid blk d rest st sv hl]
      exact ⟨rfl, rfl, rfl, rfl, rfl, rfl, rfl, rfl, rfl, rfl⟩
    · have hl' : st.lockHeld = false := by simpa using hl
      obtain ⟨h1, h2, h3, h4, h5, h6, h7, h8, h9, h10⟩ :=
        addLoopStep_fields blkid blk d st
      cases cl with
      | false =>
        rw [addLoopGo_cons_false blkid blk d rest st sv hl']
        exact ⟨h1, h2, h3, h4, h5, h6, h7, h8, h9, h10⟩
      | true =>
        rw [addLoopGo_cons_true blkid blk d rest st sv hl']
        obtain ⟨g1, g2, g3, g4, g5, g6, g7, g8, g9, g10⟩ :=
          ih (addLoopStep blkid blk d st)
            (sv || (isRightOrFull st.kind && anyNullIn (blk.disjNulls.getD d none)))
        exact ⟨g1.trans h1, g2.trans h2, g3.trans h3, g4.trans h4, g5.trans h5,
          g6.trans h6, g7.trans h7, g8.trans h8, g9.trans h9, g10.trans h10⟩

theorem addLoopGo_err_logical (cl : Bool) (blkid : Nat) (blk : InBlock) (ds : List Nat) :
    ∀ (st : HJState) (sv : Bool) (e : ErrorCode) (sto : HJState),
      addLoopGo cl blkid blk ds st sv = AddLoopOut.err e sto
        → e = ErrorCode.LOGICAL_ERROR := by
  induction ds with
  | nil => intro st sv e sto h; simp [addLoopGo] at h
  | cons d rest ih =>
    intro st sv e sto h
    by_cases hl : st.lockHeld = true
    · rw [addLoopGo_cons_lock cl blkid blk d rest st sv hl] at h
      injection h with he _
      exact he.symm
    · have hl' : st.lockHeld = false := by simpa using hl
      cases cl with
      | false =>
        rw [addLoopGo_cons_false blkid blk d rest st sv hl'] at h
        simp at h
      | true =>
        rw [addLoopGo_cons_true blkid blk d rest st sv hl'] at h
        exact ih _ _ _ _ h

theorem addLoopGo_true_fin (blkid : Nat) (blk : InBlock) (ds : List Nat) :
    ∀ (st : HJState) (sv : Bool), st.lockHeld = false →
      ∃ sto svo, addLoopGo true blkid blk ds st sv = AddLoopOut.fin sto svo := by
  induction ds with
  | nil => intro st sv _; exact ⟨st, sv, rfl⟩
  | cons d rest ih =>
    intro st sv hl
    rw [addLoopGo_cons_true blkid blk d rest st sv hl]
    exact ih _ _ ((addLoopStep_fields blkid blk d st).2.2.2.2.2.2.2.2.1.trans hl)

theorem insertFromBlockImplM_real (ty : HJType) (mo atlr : Bool) (m : BuildMap)
    (keys : List Nat) (nm : Option (List Bool)) (blkid : Nat)
    (h1 : ty ≠ HJType.EMPTY) (h2 : ty ≠ HJType.CROSS) (h3 : ty ≠ HJType.DICT) :
    insertFromBlockImplM ty mo atlr m keys nm blkid
      = (insertFromBlockImplTypeCase mo atlr m keys nm blkid,
          (insertFromBlockImplTypeCase mo atlr m keys nm blkid).length) := by
  cases ty <;> first
    | rfl
    | exact absurd rfl (by assumption)

theorem addLoopStep_maps_getD_self (blkid : Nat) (blk : InBlock) (d : Nat)
    (st : HJState) (hd : d < st.maps.length) (hk : st.kind ≠ JoinKind.Cross) :
    (addLoopStep blkid blk d st).maps.getD d []
      = disjunctMapUpdate st.hjType st.kind st.strictness st.anyTakeLastRow
          blkid blk d (st.maps.getD d []) := by
  have hk' : (st.kind == JoinKind.Cross) = false := by simpa using hk
  unfold addLoopStep disjunctMapUpdate
  simp only [hk', Bool.false_eq_true, if_false]
  split <;> exact getD_set_self st.maps d _ [] hd

theorem addLoopStep_maps_getD_ne (blkid : Nat) (blk : InBlock) (d j : Nat)
    (st : HJState) (h : d ≠ j) :
    (addLoopStep blkid blk d st).maps.getD j [] = st.maps.getD j [] := by
  unfold addLoopStep
  split
  · rfl
  · split <;> exact getD_set_ne st.maps d j _ [] h

theorem addLoopGo_maps_getD (blkid : Nat) (blk : InBlock) (ds : List Nat) :
    ∀ (st : HJState) (sv : Bool), ds.Nodup → st.lockHeld = false →
      st.kind ≠ JoinKind.Cross → (∀ d ∈ ds, d < st.maps.length) → ∀ (d0 : Nat),
      ((addLoopGo true blkid blk ds st sv).state).maps.getD d0 []
        = if d0 ∈ ds then
            disjunctMapUpdate st.hjType st.kind st.strictness st.anyTakeLastRow
              blkid blk d0 (st.maps.getD d0 [])
          else st.maps.getD d0 [] := by
  induction ds with
  | nil => intro st sv _ _ _ _ d0; simp [addLoopGo, AddLoopOut.state]
  | cons d rest ih =>
    intro st sv hnd hl hk hlt d0
    obtain ⟨h1, h2, h3, h4, h5, h6, h7, h8, h9, h10⟩ :=
      addLoopStep_fields blkid blk d st
    rw [addLoopGo_cons_true blkid blk d rest st sv hl]
    have hrec := ih (addLoopStep blkid blk d st)
      (sv || (isRightOrFull st.kind && anyNullIn (blk.disjNulls.getD d none)))
      (List.Nodup.of_cons hnd) (h9.trans hl) (h3.symm ▸ hk)
      (fun d2 hd2 => h10.symm ▸ hlt d2 (List.mem_cons_of_mem d hd2)) d0
    rw [hrec, h2, h3, h4, h5]
    by_cases hd0 : d0 = d
    · subst hd0
      have hnmem : d0 ∉ rest := (List.nodup_cons.mp hnd).1
      have hself := addLoopStep_maps_getD_self blkid blk d0 st
        (hlt d0 (List.mem_cons_self d0 rest)) hk
      rw [if_neg hnmem, hself, if_pos (List.mem_cons_self d0 rest)]
    · have hne := addLoopStep_maps_getD_ne blkid blk d d0 st (fun hh => hd0 hh.symm)
      rw [hne]
      by_cases hmem : d0 ∈ rest
      · rw [if_pos hmem, if_pos (List.mem_cons_of_mem d hmem)]
      · rw [if_neg hmem, if_neg (by simp [List.mem_cons, hd0, hmem])]

theorem appendBlockState_fields (st : HJState) (blk : InBlock) :
    (appendBlockState st blk).blocks = st.blocks ++ [blk.rows]
    ∧ (appendBlockState st blk).hjType = st.hjType
    ∧ (appendBlockState st blk).kind = st.kind
    ∧ (appendBlockState st blk).strictness = st.strictness
    ∧ (appendBlockState st blk).anyTakeLastRow = st.anyTakeLastRow
    ∧ (appendBlockState st blk).emptyFlag = (st.emptyFlag && blk.rows == 0)
    ∧ (appendBlockState st blk).maxRows = st.maxRows
    ∧ (appendBlockState st blk).blocksNullmaps = st.blocksNullmaps
    ∧ (appendBlockState st blk).lockHeld = st.lockHeld
    ∧ (appendBlockState st blk).maps = st.maps := by
  unfold appendBlockState
  by_cases hz : blk.rows = 0
  · simp [hz]
  · simp [hz]

theorem addFinish_fst_fields (blkid : Nat) (blk : InBlock) (cl : Bool)
    (sto : HJState) (sv : Bool) :
    ((addFinish blkid blk cl sto sv).1).blocks = sto.blocks
    ∧ ((addFinish blkid blk cl sto sv).1).hjType = sto.hjType
    ∧ ((addFinish blkid blk cl sto sv).1).kind = sto.kind
    ∧ ((addFinish blkid blk cl sto sv).1).emptyFlag = sto.emptyFlag
    ∧ ((addFinish blkid blk cl sto sv).1).lockHeld = sto.lockHeld
    ∧ ((addFinish blkid blk cl sto sv).1).maps = sto.maps
    ∧ ((addFinish blkid blk cl sto sv).1).usedFlagsLen = sto.usedFlagsLen := by
  unfold addFinish
  cases sv <;> cases hmx : sto.maxRows <;>
    simp [hmx, apply_ite Prod.fst]

theorem addFinish_snd (blkid : Nat) (blk : InBlock) (cl : Bool)
    (sto : HJState) (sv : Bool) :
    (addFinish blkid blk cl sto sv).2 = Except.ok true
    ∨ (addFinish blkid blk cl sto sv).2
        = Except.error ErrorCode.SET_SIZE_LIMIT_EXCEEDED := by
  unfold addFinish
  cases sv <;> cases hmx : sto.maxRows <;>
    simp [hmx, apply_ite Prod.snd] <;>
    exact le_or_lt _ _

theorem addJoinedBlock_pass (st : HJState) (blk : InBlock) (cl : Bool)
    (hE : (st.hjType == HJType.EMPTY) = false)
    (hD : (st.hjType == HJType.DICT) = false) (hr : ¬ u32max < blk.rows) :
    addJoinedBlock st blk cl
      = match addLoopGo cl st.blocks.length blk
            (List.range (appendBlockState st blk).maps.length)
            (appendBlockState st blk) false with
        | AddLoopOut.err e sto => (sto, Except.error e)
        | AddLoopOut.early sto => (sto, Except.ok true)
        | AddLoopOut.fin sto sv => addFinish st.blocks.length blk cl sto sv := by
  simp [addJoinedBlock, hE, hD, hr]

/-- **C7.** `addJoinedBlock` raises `NOT_IMPLEMENTED` exactly on blocks with
more rows than the 32-bit row-index maximum; any block at or below the bound
passes the oversize check and extends the right-side storage (even when a
later step of the same call raises). -/
theorem c7_addJoinedBlock_oversize (st : HJState) (blk : InBlock) (cl : Bool)
    (hE : st.hjType ≠ HJType.EMPTY) (hD : st.hjType ≠ HJType.DICT) :
    ((addJoinedBlock st blk cl).2 = Except.error ErrorCode.NOT_IMPLEMENTED
        ↔ u32max < blk.rows)
    ∧ (blk.rows ≤ u32max →
        ((addJoinedBlock st blk cl).1).blocks = st.blocks ++ [blk.rows]) := by
  have hE' : (st.hjType == HJType.EMPTY) = false := by simpa using hE
  have hD' : (st.hjType == HJType.DICT) = false := by simpa using hD
  by_cases hr : u32max < blk.rows
  · refine ⟨⟨fun _ => hr, fun _ => ?_⟩, fun hle => absurd hr (by omega)⟩
    simp [addJoinedBlock, hE', hD', hr]
  · rw [addJoinedBlock_pass st blk cl hE' hD' hr]
    cases hout : addLoopGo cl st.blocks.length blk
        (List.range (appendBlockState st blk).maps.length)
        (appendBlockState st blk) false with
    | err e sto =>
      have he := addLoopGo_err_logical cl st.blocks.length blk _ _ _ _ _ hout
      have hb : sto.blocks = st.blocks ++ [blk.rows] := by
        have hfd := (addLoopGo_fields cl st.blocks.length blk
          (List.range (appendBlockState st blk).maps.length)
          (appendBlockState st blk) false).1
        rw [hout] at hfd
        exact hfd.trans (appendBlockState_fields st blk).1
      subst he
      exact ⟨by simp [hr], fun _ => hb⟩
    | early sto =>
      have hb : sto.blocks = st.blocks ++ [blk.rows] := by
        have hfd := (addLoopGo_fields cl st.blocks.length blk
          (List.range (appendBlockState st blk).maps.length)
          (appendBlockState st blk) false).1
        rw [hout] at hfd
        exact hfd.trans (appendBlockState_fields st blk).1
      exact ⟨by simp [hr], fun _ => hb⟩
    | fin sto sv =>
      have hb : sto.blocks = st.blocks ++ [blk.rows] := by
        have hfd := (addLoopGo_fields cl st.blocks.length blk
          (List.range (appendBlockState st blk).maps.length)
          (appendBlockState st blk) false).1
        rw [hout] at hfd
        exact hfd.trans (appendBlockState_fields st blk).1
      constructor
      · rcases addFinish_snd st.blocks.length blk cl sto sv with h | h <;>
          simp [h, hr]
      · intro _
        exact (addFinish_fst_fields st.blocks.length blk cl sto sv).1.trans hb

/-- Concrete instance used to witness `c7_addJoinedBlock_oversize`. -/
def c7exState : HJState :=
  { hjType := HJType.key64, kind := JoinKind.Inner,
    strictness := JoinStrictness.All, anyTakeLastRow := false, maxRows := none,
    maps := [[]], blocks := [], blocksNullmaps := [], usedFlagsLen := none,
    emptyFlag := true, lockHeld := false }

/-- Concrete right block used to witness `c7_addJoinedBlock_oversize`. -/
def c7exBlock : InBlock :=
  { rows := 1, disjKeys := [[7]], disjNulls := [none] }

theorem c7_witness :
    c7exState.hjType ≠ HJType.EMPTY ∧ c7exState.hjType ≠ HJType.DICT
    ∧ (((addJoinedBlock c7exState c7exBlock true).2
          = Except.error ErrorCode.NOT_IMPLEMENTED ↔ u32max < c7exBlock.rows)
      ∧ (c7exBlock.rows ≤ u32max →
          ((addJoinedBlock c7exState c7exBlock true).1).blocks
            = c7exState.blocks ++ [c7exBlock.rows])) :=
  ⟨by decide, by decide,
    c7_addJoinedBlock_oversize c7exState c7exBlock true (by decide) (by decide)⟩

theorem addJoinedBlock_const (st : HJState) (blk : InBlock) (cl : Bool) :
    ((addJoinedBlock st blk cl).1).hjType = st.hjType
    ∧ ((addJoinedBlock st blk cl).1).kind = st.kind := by
  unfold addJoinedBlock
  split
  · exact ⟨rfl, rfl⟩
  split
  · exact ⟨rfl, rfl⟩
  split
  · exact ⟨rfl, rfl⟩
  cases hout : addLoopGo cl st.blocks.length blk
      (List.range (appendBlockState st blk).maps.length)
      (appendBlockState st blk) false with
  | err e sto =>
    have hfd := addLoopGo_fields cl st.blocks.length blk
      (List.range (appendBlockState st blk).maps.length)
      (appendBlockState st blk) false
    rw [hout] at hfd
    exact ⟨hfd.2.1.trans (appendBlockState_fields st blk).2.1,
      hfd.2.2.1.trans (appendBlockState_fields st blk).2.2.1⟩
  | early sto =>
    have hfd := addLoopGo_fields cl st.blocks.length blk
      (List.range (appendBlockState st blk).maps.length)
      (appendBlockState st blk) false
    rw [hout] at hfd
    exact ⟨hfd.2.1.trans (appendBlockState_fields st blk).2.1,
      hfd.2.2.1.trans (appendBlockState_fields st blk).2.2.1⟩
  | fin sto sv =>
    have hfd := addLoopGo_fields cl st.blocks.length blk
      (List.range (appendBlockState st blk).maps.length)
      (appendBlockState st blk) false
    rw [hout] at hfd
    have hfin := addFinish_fst_fields st.blocks.length blk cl sto sv
    exact ⟨hfin.2.1.trans (hfd.2.1.trans (appendBlockState_fields st blk).2.1),
      hfin.2.2.1.trans (hfd.2.2.1.trans (appendBlockState_fields st blk).2.2.1)⟩

theorem addJoinedBlock_emptyFlag (st : HJState) (blk : InBlock) (cl : Bool)
    (hE : st.hjType ≠ HJType.EMPTY) (hD : st.hjType ≠ HJType.DICT)
    (hr : ¬ u32max < blk.rows) :
    ((addJoinedBlock st blk cl).1).emptyFlag
      = (st.emptyFlag && blk.rows == 0) := by
  have hE' : (st.hjType == HJType.EMPTY) = false := by simpa using hE
  have hD' : (st.hjType == HJType.DICT) = false := by simpa using hD
  rw [addJoinedBlock_pass st blk cl hE' hD' hr]
  cases hout : addLoopGo cl st.blocks.length blk
      (List.range (appendBlockState st blk).maps.length)
      (appendBlockState st blk) false with
  | err e sto =>
    have hfd := addLoopGo_fields cl st.blocks.length blk
      (List.range (appendBlockState st blk).maps.length)
      (appendBlockState st blk) false
    rw [hout] at hfd
    exact hfd.2.2.2.2.2.1.trans (appendBlockState_fields st blk).2.2.2.2.2.1
  | early sto =>
    have hfd := addLoopGo_fields cl st.blocks.length blk
      (List.range (appendBlockState st blk).maps.length)
      (appendBlockState st blk) false
    rw [hout] at hfd
    exact hfd.2.2.2.2.2.1.trans (appendBlockState_fields st blk).2.2.2.2.2.1
  | fin sto sv =>
    have hfd := addLoopGo_fields cl st.blocks.length blk
      (List.range (appendBlockState st blk).maps.length)
      (appendBlockState st blk) false
    rw [hout] at hfd
    exact (addFinish_fst_fields st.blocks.length blk cl sto sv).2.2.2.1.trans
      (hfd.2.2.2.2.2.1.trans (appendBlockState_fields st blk).2.2.2.2.2.1)

theorem ingestList_const (bs : List (InBlock × Bool)) :
    ∀ st : HJState, (ingestList st bs).hjType = st.hjType
      ∧ (ingestList st bs).kind = st.kind := by
  induction bs with
  | nil => intro st; exact ⟨rfl, rfl⟩
  | cons p ps ih =>
    intro st
    have h := addJoinedBlock_const st p.1 p.2
    have g := ih (addJoinedBlock st p.1 p.2).1
    exact ⟨g.1.trans h.1, g.2.trans h.2⟩

theorem ingestList_emptyFlag (bs : List (InBlock × Bool)) :
    ∀ st : HJState, st.hjType ≠ HJType.EMPTY → st.hjType ≠ HJType.DICT →
      (∀ p ∈ bs, p.1.rows ≤ u32max) →
      (ingestList st bs).emptyFlag
        = (st.emptyFlag && bs.all (fun p => p.1.rows == 0)) := by
  induction bs with
  | nil => intro st _ _ _; simp [ingestList]
  | cons p ps ih =>
    intro st hE hD hall
    have hr : ¬ u32max < p.1.rows := by
      have := hall p (List.mem_cons_self p ps)
      omega
    have h1 := addJoinedBlock_emptyFlag st p.1 p.2 hE hD hr
    have hconst := addJoinedBlock_const st p.1 p.2
    have h2 := ih (addJoinedBlock st p.1 p.2).1
      (by rw [hconst.1]; exact hE) (by rw [hconst.1]; exact hD)
      (fun q hq => hall q (List.mem_cons_of_mem p hq))
    show (ingestList (addJoinedBlock st p.1 p.2).1 ps).emptyFlag = _
    rw [h2, h1]
    simp [List.all_cons, Bool.and_assoc]

/-- **C10.** Starting from a properly initialized instance,
`alwaysReturnsEmptySet` is true after any sequence of ingested blocks iff
the kind is Inner or Right and every ingested block was empty; moreover a
dictionary-backed instance never reports an always-empty set.  (Left, Full
and Cross kinds make the first conjunct's right side false, so they never
report it either.) -/
theorem c10_alwaysReturnsEmptySet (st0 : HJState) (bs : List (InBlock × Bool))
    (hE : st0.hjType ≠ HJType.EMPTY) (hD : st0.hjType ≠ HJType.DICT)
    (hEm : st0.emptyFlag = true)
    (hall : ∀ p ∈ bs, p.1.rows ≤ u32max) :
    (alwaysReturnsEmptySet (ingestList st0 bs) = true ↔
      (st0.kind = JoinKind.Inner ∨ st0.kind = JoinKind.Right)
        ∧ ∀ p ∈ bs, p.1.rows = 0)
    ∧ (∀ st : HJState, st.hjType = HJType.DICT
        → alwaysReturnsEmptySet st = false) := by
  constructor
  · have hty := (ingestList_const bs st0).1
    have hkd := (ingestList_const bs st0).2
    have hem := ingestList_emptyFlag bs st0 hE hD hall
    have hD2 : ((ingestList st0 bs).hjType == HJType.DICT) = false := by
      rw [hty]
      simpa using hD
    unfold alwaysReturnsEmptySet overDictionary
    rw [hkd, hem, hEm, hD2]
    cases hk : st0.kind <;>
      simp [isInnerOrRight, List.all_eq_true]
  · intro st h
    simp [alwaysReturnsEmptySet, overDictionary, h]

/-- Concrete instance used to witness `c10_alwaysReturnsEmptySet`. -/
def c10exState : HJState :=
  { hjType := HJType.key64, kind := JoinKind.Inner,
    strictness := JoinStrictness.All, anyTakeLastRow := false, maxRows := none,
    maps := [[]], blocks := [], blocksNullmaps := [], usedFlagsLen := none,
    emptyFlag := true, lockHeld := false }

/-- Concrete ingestion sequence used to witness `c10_alwaysReturnsEmptySet`. -/
def c10exBlocks : List (InBlock × Bool) :=
  [({ rows := 0, disjKeys := [[]], disjNulls := [none] }, true)]

theorem c10_witness :
    c10exState.hjType ≠ HJType.EMPTY ∧ c10exState.hjType ≠ HJType.DICT
    ∧ c10exState.emptyFlag = true
    ∧ (∀ p ∈ c10exBlocks, p.1.rows ≤ u32max)
    ∧ ((alwaysReturnsEmptySet (ingestList c10exState c10exBlocks) = true ↔
        (c10exState.kind = JoinKind.Inner ∨ c10exState.kind = JoinKind.Right)
          ∧ ∀ p ∈ c10exBlocks, p.1.rows = 0)
      ∧ (∀ st : HJState, st.hjType = HJType.DICT
          → alwaysReturnsEmptySet st = false)) :=
  ⟨by decide, by decide, by decide, by decide,
    c10_alwaysReturnsEmptySet c10exState c10exBlocks (by decide) (by decide)
      (by decide) (by decide)⟩

theorem addLoopStep_ufl (blkid : Nat) (blk : InBlock) (d : Nat) (st : HJState)
    (hk : st.kind ≠ JoinKind.Cross)
    (hf : mapGetterFlagged st.kind st.strictness = true) :
    (addLoopStep blkid blk d st).usedFlagsLen
      = some ((insertFromBlockImplM st.hjType (mapGetterOne st.kind st.strictness)
          st.anyTakeLastRow (st.maps.getD d []) (blk.disjKeys.getD d [])
          (blk.disjNulls.getD d none) blkid).2 + 1) := by
  have hk' : (st.kind == JoinKind.Cross) = false := by simpa using hk
  unfold addLoopStep
  simp [hk', hf]

theorem addLoopStep_flagged_len (blkid : Nat) (blk : InBlock) (d : Nat)
    (st : HJState) (hE : st.hjType ≠ HJType.EMPTY) (hC : st.hjType ≠ HJType.CROSS)
    (hD : st.hjType ≠ HJType.DICT) (hk : st.kind ≠ JoinKind.Cross)
    (hd : d < st.maps.length)
    (hf : mapGetterFlagged st.kind st.strictness = true) :
    (addLoopStep blkid blk d st).usedFlagsLen
      = some (((addLoopStep blkid blk d st).maps.getD d []).length + 1) := by
  rw [addLoopStep_maps_getD_self blkid blk d st hd hk,
    addLoopStep_ufl blkid blk d st hk hf]
  unfold disjunctMapUpdate
  rw [insertFromBlockImplM_real st.hjType _ _ _ _ _ _ hE hC hD]

/-- **C5 (amended).** `used_flags` is one storage shared by all disjuncts:
each processed disjunct re-initializes it to its own map's cell count + 1,
so after `addJoinedBlock` its length is the cell count of the LAST processed
disjunct's map plus one, not a sum over disjuncts.  For a single-disjunct
join with a flagged shape, the length equals (cells of `maps[0]`) + 1. -/
theorem c5_usedFlags_amended (st : HJState) (blk : InBlock) (cl : Bool)
    (hE : st.hjType ≠ HJType.EMPTY) (hC : st.hjType ≠ HJType.CROSS)
    (hD : st.hjType ≠ HJType.DICT) (hk : st.kind ≠ JoinKind.Cross)
    (hl : st.lockHeld = false) (hn : st.maps.length = 1)
    (hf : mapGetterFlagged st.kind st.strictness = true)
    (hr : ¬ u32max < blk.rows) :
    ((addJoinedBlock st blk cl).1).usedFlagsLen
      = some ((((addJoinedBlock st blk cl).1).maps.getD 0 []).length + 1) := by
  have hE' : (st.hjType == HJType.EMPTY) = false := by simpa using hE
  have hD' : (st.hjType == HJType.DICT) = false := by simpa using hD
  obtain ⟨a1, a2, a3, a4, a5, a6, a7, a8, a9, a10⟩ := appendBlockState_fields st blk
  have hlen : (appendBlockState st blk).maps.length = 1 := by rw [a10]; exact hn
  have hstep := addLoopStep_flagged_len st.blocks.length blk 0 (appendBlockState st blk)
    (by rw [a2]; exact hE) (by rw [a2]; exact hC) (by rw [a2]; exact hD)
    (by rw [a3]; exact hk) (by rw [hlen]; exact Nat.zero_lt_one)
    (by rw [a3, a4]; exact hf)
  have hlA : (appendBlockState st blk).lockHeld = false := by rw [a9]; exact hl
  have hr1 : List.range 1 = [0] := by decide
  rw [addJoinedBlock_pass st blk cl hE' hD' hr, hlen, hr1]
  cases cl with
  | false =>
    rw [addLoopGo_cons_false st.blocks.length blk 0 [] (appendBlockState st blk)
      false hlA]
    exact hstep
  | true =>
    rw [addLoopGo_cons_true st.blocks.length blk 0 [] (appendBlockState st blk)
      false hlA]
    have hfin := addFinish_fst_fields st.blocks.length blk true
      (addLoopStep st.blocks.length blk 0 (appendBlockState st blk))
      (false || (isRightOrFull (appendBlockState st blk).kind
        && anyNullIn (blk.disjNulls.getD 0 none)))
    show (addFinish st.blocks.length blk true
        (addLoopStep st.blocks.length blk 0 (appendBlockState st blk))
        (false || (isRightOrFull (appendBlockState st blk).kind
          && anyNullIn (blk.disjNulls.getD 0 none)))).1.usedFlagsLen
      = some (((addFinish st.blocks.length blk true
          (addLoopStep st.blocks.length blk 0 (appendBlockState st blk))
          (false || (isRightOrFull (appendBlockState st blk).kind
            && anyNullIn (blk.disjNulls.getD 0 none)))).1.maps.getD
              0 []).length + 1)
    rw [hfin.2.2.2.2.2.2, hfin.2.2.2.2.2.1]
    exact hstep

/-- Right+All two-disjunct instance refuting the summed used-flags claim. -/
def c5exState : HJState :=
  { hjType := HJType.key64, kind := JoinKind.Right,
    strictness := JoinStrictness.All, anyTakeLastRow := false, maxRows := none,
    maps := [[], []], blocks := [], blocksNullmaps := [], usedFlagsLen := none,
    emptyFlag := true, lockHeld := false }

/-- One-row block with different keys under the two disjuncts. -/
def c5exBlock : InBlock :=
  { rows := 1, disjKeys := [[7], [8]], disjNulls := [none, none] }

/-- **C5 counterexample.** After ingesting one block into a flagged
two-disjunct Right All join, the used-flags storage has length 2 (cells of
the last disjunct's map + 1), while the claim's Σ_d (cells_d + 1) is 4. -/
theorem c5_counterexample :
    ((addJoinedBlock c5exState c5exBlock true).1).usedFlagsLen = some 2
    ∧ (((addJoinedBlock c5exState c5exBlock true).1).maps.map
        (fun m => m.length + 1)).sum = 4 := by
  decide

/-- Single-disjunct instance used to witness `c5_usedFlags_amended`. -/
def c5exWitState : HJState :=
  { hjType := HJType.key64, kind := JoinKind.Right,
    strictness := JoinStrictness.All, anyTakeLastRow := false, maxRows := none,
    maps := [[]], blocks := [], blocksNullmaps := [], usedFlagsLen := none,
    emptyFlag := true, lockHeld := false }

/-- One-row single-disjunct block used to witness `c5_usedFlags_amended`. -/
def c5exWitBlock : InBlock :=
  { rows := 1, disjKeys := [[7]], disjNulls := [none] }

theorem c5_witness :
    c5exWitState.hjType ≠ HJType.EMPTY ∧ c5exWitState.hjType ≠ HJType.CROSS
    ∧ c5exWitState.hjType ≠ HJType.DICT ∧ c5exWitState.kind ≠ JoinKind.Cross
    ∧ c5exWitState.lockHeld = false ∧ c5exWitState.maps.length = 1
    ∧ mapGetterFlagged c5exWitState.kind c5exWitState.strictness = true
    ∧ ¬ u32max < c5exWitBlock.rows
    ∧ ((addJoinedBlock c5exWitState c5exWitBlock true).1).usedFlagsLen
        = some ((((addJoinedBlock c5exWitState c5exWitBlock true).1).maps.getD 0
            []).length + 1) :=
  ⟨by decide, by decide, by decide, by decide, by decide, by decide, by decide,
    by decide,
    c5_usedFlags_amended c5exWitState c5exWitBlock true (by decide) (by decide)
      (by decide) (by decide) (by decide) (by decide) (by decide) (by decide)⟩

/-! ### Membership in the build maps -/

theorem getD_mem {α : Type} (l : List α) (i : Nat) (d : α) (h : i < l.length) :
    l.getD i d ∈ l := by
  induction l generalizing i with
  | nil => simp at h
  | cons a t ih =>
    cases i with
    | zero => exact List.mem_cons_self a t
    | succ n =>
      simp only [List.getD_cons_succ]
      exact List.mem_cons_of_mem a (ih n (by simpa using h))

theorem rowsOfMap_insertAllRef (m : BuildMap) (k : Nat) (r x : RowRefM) :
    x ∈ rowsOfMap (insertAllRef m k r) ↔ x ∈ rowsOfMap m ∨ x = r := by
  induction m with
  | nil => simp [insertAllRef, rowsOfMap]
  | cons kv rest ih =>
    by_cases hk : kv.1 = k
    · simp only [insertAllRef, hk, if_true, rowsOfMap, List.mem_append]
      simp only [List.mem_append, List.mem_singleton]
      tauto
    · simp only [insertAllRef, hk, if_false, rowsOfMap, List.mem_append, ih]
      tauto

theorem rowsOfMap_insertOne_sub (atlr : Bool) (m : BuildMap) (k : Nat)
    (r x : RowRefM) (h : x ∈ rowsOfMap (insertOne atlr m k r)) :
    x ∈ rowsOfMap m ∨ x = r := by
  induction m with
  | nil =>
    simp only [insertOne, rowsOfMap, List.mem_append] at h
    simpa [rowsOfMap] using h
  | cons kv rest ih =>
    by_cases hk : kv.1 = k
    · by_cases ha : atlr = true
      · simp only [insertOne, hk, if_true, ha, rowsOfMap, List.mem_append] at h
        rcases h with h | h
        · simp only [List.mem_singleton] at h
          exact Or.inr h
        · exact Or.inl (by simp [rowsOfMap, List.mem_append, h])
      · have ha' : atlr = false := by simpa using ha
        simp only [insertOne, hk, if_true, ha', if_false] at h
        exact Or.inl h
    · simp only [insertOne, hk, if_false, rowsOfMap, List.mem_append] at h ⊢
      rcases h with h | h
      · exact Or.inl (Or.inl h)
      · rcases ih h with h2 | h2
        · exact Or.inl (Or.inr h2)
        · exact Or.inr h2

theorem insertRowsGo_sub (mo atlr : Bool) (blkid : Nat) (nm : Option (List Bool)) :
    ∀ (ps : List (Nat × Nat)) (m : BuildMap) (x : RowRefM),
      x ∈ rowsOfMap (insertRowsGo mo atlr blkid nm m ps)
        → x ∈ rowsOfMap m
          ∨ ∃ p ∈ ps, isNullAt nm p.1 = false ∧ x = ⟨blkid, p.1⟩ := by
  intro ps
  induction ps with
  | nil => intro m x h; exact Or.inl h
  | cons p ps ih =>
    intro m x h
    by_cases hnull : isNullAt nm p.1 = true
    · have h2 := ih m x (by simpa [insertRowsGo, hnull] using h)
      rcases h2 with h2 | ⟨q, hq, hqn, hqe⟩
      · exact Or.inl h2
      · exact Or.inr ⟨q, List.mem_cons_of_mem p hq, hqn, hqe⟩
    · have hnull' : isNullAt nm p.1 = false := by simpa using hnull
      have hh : x ∈ rowsOfMap (insertRowsGo mo atlr blkid nm
          (if mo then insertOne atlr m p.2 ⟨blkid, p.1⟩
            else insertAllRef m p.2 ⟨blkid, p.1⟩) ps) := by
        simpa [insertRowsGo, hnull'] using h
      rcases ih _ x hh with h2 | ⟨q, hq, hqn, hqe⟩
      · have h3 : x ∈ rowsOfMap m ∨ x = (⟨blkid, p.1⟩ : RowRefM) := by
          by_cases hmo : mo = true
          · exact rowsOfMap_insertOne_sub atlr m p.2 _ x (by simpa [hmo] using h2)
          · have hmo' : mo = false := by simpa using hmo
            exact (rowsOfMap_insertAllRef m p.2 _ x).mp (by simpa [hmo'] using h2)
        rcases h3 with h3 | h3
        · exact Or.inl h3
        · exact Or.inr ⟨p, List.mem_cons_self p ps, hnull', h3⟩
      · exact Or.inr ⟨q, List.mem_cons_of_mem p hq, hqn, hqe⟩

theorem insertRowsGo_mono (atlr : Bool) (blkid : Nat) (nm : Option (List Bool)) :
    ∀ (ps : List (Nat × Nat)) (m : BuildMap) (x : RowRefM),
      x ∈ rowsOfMap m → x ∈ rowsOfMap (insertRowsGo false atlr blkid nm m ps) := by
  intro ps
  induction ps with
  | nil => intro m x h; exact h
  | cons q qs ih =>
    intro m x h
    by_cases hq : isNullAt nm q.1 = true
    · simpa [insertRowsGo, hq] using ih m x h
    · have hq' : isNullAt nm q.1 = false := by simpa using hq
      have h2 := ih (insertAllRef m q.2 ⟨blkid, q.1⟩) x
        ((rowsOfMap_insertAllRef m q.2 _ x).mpr (Or.inl h))
      simpa [insertRowsGo, hq'] using h2

theorem insertRowsGo_mem_all (atlr : Bool) (blkid : Nat) (nm : Option (List Bool)) :
    ∀ (ps : List (Nat × Nat)) (m : BuildMap) (p : Nat × Nat),
      p ∈ ps → isNullAt nm p.1 = false →
      (⟨blkid, p.1⟩ : RowRefM) ∈ rowsOfMap (insertRowsGo false atlr blkid nm m ps) := by
  intro ps
  induction ps with
  | nil => intro m p hp; cases hp
  | cons q qs ih =>
    intro m p hp hnull
    rcases List.mem_cons.mp hp with hq | hq
    · subst hq
      have h0 : (⟨blkid, p.1⟩ : RowRefM)
          ∈ rowsOfMap (insertAllRef m p.2 ⟨blkid, p.1⟩) :=
        (rowsOfMap_insertAllRef m p.2 _ _).mpr (Or.inr rfl)
      have h1 := insertRowsGo_mono atlr blkid nm qs _ _ h0
      simpa [insertRowsGo, hnull] using h1
    · by_cases hqnull : isNullAt nm q.1 = true
      · simpa [insertRowsGo, hqnull] using ih m p hq hnull
      · have hq' : isNullAt nm q.1 = false := by simpa using hqnull
        simpa [insertRowsGo, hq'] using
          ih (insertAllRef m q.2 ⟨blkid, q.1⟩) p hq hnull

theorem enumFrom_fst_bounds :
    ∀ (ks : List Nat) (s : Nat) (p : Nat × Nat),
      p ∈ enumFrom s ks → s ≤ p.1 ∧ p.1 < s + ks.length := by
  intro ks
  induction ks with
  | nil => intro s p hp; cases hp
  | cons k kt ih =>
    intro s p hp
    rcases List.mem_cons.mp hp with hq | hq
    · subst hq; simp
    · have := ih (s + 1) p hq
      constructor
      · omega
      · simpa [Nat.add_comm, Nat.add_left_comm] using by omega

theorem enumFrom_mem_fst :
    ∀ (ks : List Nat) (s i : Nat), i < ks.length →
      ∃ k, (s + i, k) ∈ enumFrom s ks := by
  intro ks
  induction ks with
  | nil => intro s i hi; simp at hi
  | cons k kt ih =>
    intro s i hi
    cases i with
    | zero => exact ⟨k, by simp [enumFrom]⟩
    | succ n =>
      obtain ⟨k2, hk2⟩ := ih (s + 1) n (by simpa using hi)
      refine ⟨k2, ?_⟩
      have : s + (n + 1) = s + 1 + n := by omega
      rw [this]
      exact List.mem_cons_of_mem _ hk2

theorem addJoinedBlock_maps_getD (st : HJState) (blk : InBlock)
    (hE' : (st.hjType == HJType.EMPTY) = false)
    (hD' : (st.hjType == HJType.DICT) = false) (hr : ¬ u32max < blk.rows)
    (hl : st.lockHeld = false) (hk : st.kind ≠ JoinKind.Cross)
    (d : Nat) (hd : d < st.maps.length) :
    ((addJoinedBlock st blk true).1).maps.getD d []
      = disjunctMapUpdate st.hjType st.kind st.strictness st.anyTakeLastRow
          st.blocks.length blk d (st.maps.getD d []) := by
  obtain ⟨a1, a2, a3, a4, a5, a6, a7, a8, a9, a10⟩ := appendBlockState_fields st blk
  rw [addJoinedBlock_pass st blk true hE' hD' hr]
  obtain ⟨sto, svo, hout⟩ := addLoopGo_true_fin st.blocks.length blk
    (List.range (appendBlockState st blk).maps.length) (appendBlockState st blk)
    false (by rw [a9]; exact hl)
  have hchar := addLoopGo_maps_getD st.blocks.length blk
    (List.range (appendBlockState st blk).maps.length) (appendBlockState st blk)
    false (List.nodup_range _) (by rw [a9]; exact hl) (by rw [a3]; exact hk)
    (fun d2 hd2 => List.mem_range.mp hd2) d
  rw [hout] at hchar
  simp only [AddLoopOut.state] at hchar
  have hdmem : d ∈ List.range (appendBlockState st blk).maps.length := by
    rw [a10]
    exact List.mem_range.mpr hd
  rw [if_pos hdmem] at hchar
  rw [hout]
  show (addFinish st.blocks.length blk true sto svo).1.maps.getD d []
    = disjunctMapUpdate st.hjType st.kind st.strictness st.anyTakeLastRow
        st.blocks.length blk d (st.maps.getD d [])
  rw [(addFinish_fst_fields st.blocks.length blk true sto svo).2.2.2.2.2.1, hchar,
    a2, a3, a4, a5, a10]

/-- **C4 (amended).** During a successful `addJoinedBlock` with
`check_limits` true, for every disjunct `d`: a row of the new block appears
in `maps[d]` only if it is a real row of the block whose combined null map
under `d` is clear (in particular no null-keyed row is ever inserted), and
under chain-mapped strictness (All) every non-null-keyed row of the block
IS in `maps[d]`.  Under single-row-mapped strictness duplicate keys keep one
row only (see the counterexample), and with `check_limits` false only
disjunct 0 is processed: the maps of all later disjuncts are untouched
because the call returns from inside the loop. -/
theorem c4_maps_amended (st : HJState) (blk : InBlock)
    (hE : st.hjType ≠ HJType.EMPTY) (hC : st.hjType ≠ HJType.CROSS)
    (hD : st.hjType ≠ HJType.DICT) (hk : st.kind ≠ JoinKind.Cross)
    (hl : st.lockHeld = false) (hr : ¬ u32max < blk.rows)
    (hkeys : ∀ d, d < st.maps.length → (blk.disjKeys.getD d []).length = blk.rows)
    (hfresh : ∀ m ∈ st.maps, ∀ x ∈ rowsOfMap m, x.block ≠ st.blocks.length) :
    (∀ d, d < st.maps.length →
      (∀ i, (⟨st.blocks.length, i⟩ : RowRefM)
            ∈ rowsOfMap (((addJoinedBlock st blk true).1).maps.getD d [])
          → i < blk.rows ∧ isNullAt (blk.disjNulls.getD d none) i = false)
      ∧ (mapGetterOne st.kind st.strictness = false →
          ∀ i, i < blk.rows →
            isNullAt (blk.disjNulls.getD d none) i = false →
            (⟨st.blocks.length, i⟩ : RowRefM)
              ∈ rowsOfMap (((addJoinedBlock st blk true).1).maps.getD d [])))
    ∧ (∀ d, 1 ≤ d →
        ((addJoinedBlock st blk false).1).maps.getD d []
          = st.maps.getD d []) := by
  have hE' : (st.hjType == HJType.EMPTY) = false := by simpa using hE
  have hD' : (st.hjType == HJType.DICT) = false := by simpa using hD
  constructor
  · intro d hd
    have hmeq := addJoinedBlock_maps_getD st blk hE' hD' hr hl hk d hd
    have hreal : disjunctMapUpdate st.hjType st.kind st.strictness
        st.anyTakeLastRow st.blocks.length blk d (st.maps.getD d [])
        = insertRowsGo (mapGetterOne st.kind st.strictness) st.anyTakeLastRow
            st.blocks.length (blk.disjNulls.getD d none) (st.maps.getD d [])
            (enumFrom 0 (blk.disjKeys.getD d [])) := by
      unfold disjunctMapUpdate
      rw [insertFromBlockImplM_real st.hjType _ _ _ _ _ _ hE hC hD]
      rfl
    rw [hmeq, hreal]
    constructor
    · intro i hmem
      rcases insertRowsGo_sub _ _ _ _ _ _ _ hmem with h2 | ⟨p, hp, hpn, hpe⟩
      · exact absurd rfl (hfresh (st.maps.getD d []) (getD_mem st.maps d [] hd) _ h2)
      · have hpi : p.1 = i := by
          have := congrArg RowRefM.row hpe
          simpa using this.symm
        have hb := enumFrom_fst_bounds (blk.disjKeys.getD d []) 0 p hp
        rw [hpi] at hb hpn
        refine ⟨?_, hpn⟩
        have h3 := hb.2
        rw [hkeys d hd] at h3
        omega
    · intro hmo i hi hnull
      obtain ⟨k2, hk2⟩ := enumFrom_mem_fst (blk.disjKeys.getD d []) 0 i
        (by rw [hkeys d hd]; exact hi)
      rw [hmo]
      have hmm := insertRowsGo_mem_all st.anyTakeLastRow st.blocks.length
        (blk.disjNulls.getD d none) (enumFrom 0 (blk.disjKeys.getD d []))
        (st.maps.getD d []) (0 + i, k2) hk2 (by simpa using hnull)
      simpa using hmm
  · intro d hd1
    obtain ⟨a1, a2, a3, a4, a5, a6, a7, a8, a9, a10⟩ := appendBlockState_fields st blk
    rw [addJoinedBlock_pass st blk false hE' hD' hr]
    cases hn : (appendBlockState st blk).maps.length with
    | zero =>
      rw [List.range_zero]
      show (addFinish st.blocks.length blk false (appendBlockState st blk)
          false).1.maps.getD d [] = st.maps.getD d []
      rw [(addFinish_fst_fields st.blocks.length blk false
        (appendBlockState st blk) false).2.2.2.2.2.1, a10]
    | succ n =>
      rw [List.range_succ_eq_map]
      rw [addLoopGo_cons_false st.blocks.length blk 0 _ (appendBlockState st blk)
        false (by rw [a9]; exact hl)]
      show (addLoopStep st.blocks.length blk 0
          (appendBlockState st blk)).maps.getD d [] = st.maps.getD d []
      rw [addLoopStep_maps_getD_ne st.blocks.length blk 0 d _ (by omega), a10]

/-- Left Any (single-row-mapped) instance refuting the every-row-inserted
claim. -/
def c4exState : HJState :=
  { hjType := HJType.key64, kind := JoinKind.Left,
    strictness := JoinStrictness.Any, anyTakeLastRow := false, maxRows := none,
    maps := [[]], blocks := [], blocksNullmaps := [], usedFlagsLen := none,
    emptyFlag := true, lockHeld := false }

/-- Two-row block with a duplicate key. -/
def c4exBlock : InBlock :=
  { rows := 2, disjKeys := [[5, 5]], disjNulls := [none] }

/-- **C4 counterexample.** Under Any strictness the map is single-row
mapped, so the second row with the duplicate key 5 is NOT inserted: after a
successful `addJoinedBlock` the map holds only row 0 of the block, refuting
"every non-null-keyed row of every ingested block is inserted into every
disjunct's map". -/
theorem c4_counterexample :
    ((addJoinedBlock c4exState c4exBlock true).1).maps.getD 0 []
        = [(5, [⟨0, 0⟩])]
    ∧ (⟨0, 1⟩ : RowRefM)
        ∉ rowsOfMap (((addJoinedBlock c4exState c4exBlock true).1).maps.getD 0 [])
    ∧ (addJoinedBlock c4exState c4exBlock true).2 = Except.ok true := by
  decide

/-- Right All (chain-mapped) instance used to witness `c4_maps_amended`. -/
def c4exWitState : HJState :=
  { hjType := HJType.key64, kind := JoinKind.Right,
    strictness := JoinStrictness.All, anyTakeLastRow := false, maxRows := none,
    maps := [[]], blocks := [], blocksNullmaps := [], usedFlagsLen := none,
    emptyFlag := true, lockHeld := false }

/-- Two-row block (one null-keyed row) used to witness `c4_maps_amended`. -/
def c4exWitBlock : InBlock :=
  { rows := 2, disjKeys := [[5, 6]], disjNulls := [some [false, true]] }

theorem c4_witness :
    c4exWitState.hjType ≠ HJType.EMPTY ∧ c4exWitState.hjType ≠ HJType.CROSS
    ∧ c4exWitState.hjType ≠ HJType.DICT
    ∧ c4exWitState.kind ≠ JoinKind.Cross ∧ c4exWitState.lockHeld = false
    ∧ ¬ u32max < c4exWitBlock.rows
    ∧ (∀ d, d < c4exWitState.maps.length →
        (c4exWitBlock.disjKeys.getD d []).length = c4exWitBlock.rows)
    ∧ (∀ m ∈ c4exWitState.maps, ∀ x ∈ rowsOfMap m,
        x.block ≠ c4exWitState.blocks.length)
    ∧ ((∀ d, d < c4exWitState.maps.length →
        (∀ i, (⟨c4exWitState.blocks.length, i⟩ : RowRefM)
              ∈ rowsOfMap (((addJoinedBlock c4exWitState c4exWitBlock
                  true).1).maps.getD d [])
            → i < c4exWitBlock.rows
              ∧ isNullAt (c4exWitBlock.disjNulls.getD d none) i = false)
        ∧ (mapGetterOne c4exWitState.kind c4exWitState.strictness = false →
            ∀ i, i < c4exWitBlock.rows →
              isNullAt (c4exWitBlock.disjNulls.getD d none) i = false →
              (⟨c4exWitState.blocks.length, i⟩ : RowRefM)
                ∈ rowsOfMap (((addJoinedBlock c4exWitState c4exWitBlock
                    true).1).maps.getD d [])))
      ∧ (∀ d, 1 ≤ d →
          ((addJoinedBlock c4exWitState c4exWitBlock false).1).maps.getD d []
            = c4exWitState.maps.getD d [])) :=
  ⟨by decide, by decide, by decide, by decide, by decide, by decide,
    by decide, by decide,
    c4_maps_amended c4exWitState c4exWitBlock (by decide) (by decide)
      (by decide) (by decide) (by decide) (by decide) (by decide) (by decide)⟩

/-! ### Cross join -/

/-- **C2 counterexample.** With 3 right blocks of 10 rows each, 5 left rows
and `max_joined_block_rows = 17`, the FIRST call emits 30 rows — the whole
cross product of left row 0 — not at most 17 and not the claimed 17: the cap
is only checked after each complete left row (line 1632), and the parked
continuation points past the last right block of the just-finished row. -/
theorem c2_counterexample :
    (joinBlockImplCross [10, 10, 10] 5 17 none).1.length = 30
    ∧ (joinBlockImplCross [10, 10, 10] 5 17 none).2
        = some { left_position := 0, right_block := 4 } := by
  decide

/-- **C2 (amended).** The cross-join probe emits whole left rows: it stops
after the first left row at which the cumulative emitted count exceeds
`max_joined_block_rows`, parking a resumable continuation (so one call can
exceed the cap by up to one left row's cross product).  On 3 right blocks of
10 rows, 5 left rows and cap 17, the successive calls emit 30, 30, 30, 30,
30 and 0 rows, and their concatenation is exactly the 150-row cross product,
in order, each pair emitted once. -/
theorem c2_cross_resumption :
    ((crossCalls [10, 10, 10] 5 17 10 none).map List.length
        = [30, 30, 30, 30, 30, 0])
    ∧ (crossCalls [10, 10, 10] 5 17 10 none).flatten
        = fullCrossProduct [10, 10, 10] 5 := by
  decide

/-! ### Probe -/

/-- **C1.** Multi-disjunct All probe at the claim's S6 input, with both
right rows in one stored block (one `addJoinedBlock` stores one block):
disjunct maps for keys `[a]` and `[b]`, right rows (a=1,b=2,"p") = row 0 and
(a=3,b=2,"q") = row 1, left row (a=1,b=2).  The code emits ONLY row 0
("p"): the known-rows dedup is by stored-block pointer, and "q" lives in the
same block as the already-emitted "p".  Second conjunct: with the two right
rows in two separate stored blocks and both carrying a=1, b=2, row (1,0)
("q") is emitted TWICE — `new_known_rows_ptr` records only the first newly
appended block, so block 1 is never marked known after disjunct [a]. -/
theorem c1_multi_disjunct_dedup_bug :
    (joinRightColumns JoinKind.Inner JoinStrictness.All true
        [[(1, [⟨0, 0⟩]), (3, [⟨0, 1⟩])], [(2, [⟨0, 0⟩, ⟨0, 1⟩])]]
        [[(1, false), (2, false)]] []).emitted = [some ⟨0, 0⟩]
    ∧ (joinRightColumns JoinKind.Inner JoinStrictness.All true
        [[(1, [⟨0, 0⟩, ⟨1, 0⟩])], [(2, [⟨0, 0⟩, ⟨1, 0⟩])]]
        [[(1, false), (2, false)]] []).emitted
          = [some ⟨0, 0⟩, some ⟨1, 0⟩, some ⟨1, 0⟩] := by
  decide

theorem probeFindGo_chain (m : BuildMap) :
    ∀ (off k : Nat) (q : Nat × List RowRefM),
      probeFindGo off m k = some q → ∃ kv ∈ m, kv.2 = q.2 := by
  induction m with
  | nil => intro off k q h; simp [probeFindGo] at h
  | cons kv rest ih =>
    intro off k q h
    by_cases hk : kv.1 = k
    · rw [probeFindGo, if_pos hk] at h
      injection h with h2
      exact ⟨kv, List.mem_cons_self kv rest, by rw [← h2]⟩
    · rw [probeFindGo, if_neg hk] at h
      obtain ⟨kv2, hkv2, he⟩ := ih (off + 1) k q h
      exact ⟨kv2, List.mem_cons_of_mem kv hkv2, he⟩

theorem probeFind_nonempty (m : BuildMap) (k : Nat) (q : Nat × List RowRefM)
    (hf : probeFind m k = some q) (hm : ∀ kv ∈ m, kv.2 ≠ []) : q.2 ≠ [] := by
  obtain ⟨kv, hkv, he⟩ := probeFindGo_chain m 1 k q hf
  rw [← he]
  exact hm kv hkv

theorem probeRow_left_any (m : BuildMap) (hm : ∀ kv ∈ m, kv.2 ≠ [])
    (p : Nat × Bool) (acc : ProbeAcc) :
    probeRow JoinKind.Left JoinStrictness.Any false [m] [p] acc
      = { flags := acc.flags
          emitted := acc.emitted ++ [leftAnyRowEmit m p]
          filter := acc.filter ++ [!p.2 && (probeFind m p.1).isSome]
          offsets := acc.offsets
          curOff := acc.curOff } := by
  by_cases hnull : p.2 = true
  · simp [probeRow, probeRowGo, hnull, leftAnyRowEmit, addMissing,
      needReplication]
  · have hnull' : p.2 = false := by simpa using hnull
    cases hf : probeFind m p.1 with
    | none =>
      simp [probeRow, probeRowGo, hnull', hf, leftAnyRowEmit, addMissing,
        needReplication]
    | some q =>
      have hne := probeFind_nonempty m p.1 q hf hm
      cases hq : q.2 with
      | nil => exact absurd hq hne
      | cons r0 rs =>
        cases q with
        | mk qoff qchain =>
          simp only at hq
          subst hq
          simp [probeRow, probeRowGo, hnull', hf, leftAnyRowEmit, addMissing,
            needReplication, needFlags, mapGetterFlagged, isRightOrFull,
            setUsedFlag]

theorem joinRightColumns_left_any_fold (m : BuildMap)
    (hm : ∀ kv ∈ m, kv.2 ≠ []) :
    ∀ (rd : List (Nat × Bool)) (acc : ProbeAcc),
      List.foldl (fun acc row => probeRow JoinKind.Left JoinStrictness.Any
          false [m] row acc) acc (rd.map (fun p => [p]))
        = { flags := acc.flags
            emitted := acc.emitted ++ rd.map (leftAnyRowEmit m)
            filter := acc.filter
              ++ rd.map (fun p => !p.2 && (probeFind m p.1).isSome)
            offsets := acc.offsets
            curOff := acc.curOff } := by
  intro rd
  induction rd with
  | nil => intro acc; simp
  | cons p ps ih =>
    intro acc
    simp only [List.map_cons, List.foldl_cons, probeRow_left_any m hm p acc,
      ih]
    simp

/-- **C3 (amended).** Under Any strictness with kind Left (single disjunct,
chains well-formed), `joinRightColumns` emits exactly one entry per left
row — the head row of the matched bucket when the non-null key is found, a
default entry otherwise — including blocks with several equal-keyed left
rows, and its filter marks exactly the matching rows; under kind Inner, the
per-bucket used-flag dedups left rows: probing left keys [1, 1] against a
right map holding key 1 emits one output row for the first left row and
none for the second (the second filter bit is 0, so Inner's filter drops
that row). -/
theorem c3_any_join_amended (m : BuildMap) (hm : ∀ kv ∈ m, kv.2 ≠ [])
    (rd : List (Nat × Bool)) (flags0 : List Nat) :
    ((joinRightColumns JoinKind.Left JoinStrictness.Any false [m]
        (rd.map (fun p => [p])) flags0).emitted = rd.map (leftAnyRowEmit m)
      ∧ (joinRightColumns JoinKind.Left JoinStrictness.Any false [m]
          (rd.map (fun p => [p])) flags0).filter
        = rd.map (fun p => !p.2 && (probeFind m p.1).isSome))
    ∧ ((joinRightColumns JoinKind.Inner JoinStrictness.Any false
          [[(1, [⟨0, 0⟩])]] [[(1, false)], [(1, false)]] []).filter
        = [true, false]
      ∧ (joinRightColumns JoinKind.Inner JoinStrictness.Any false
          [[(1, [⟨0, 0⟩])]] [[(1, false)], [(1, false)]] []).emitted
        = [some ⟨0, 0⟩]) := by
  constructor
  · have h := joinRightColumns_left_any_fold m hm rd ⟨flags0, [], [], [], 0⟩
    unfold joinRightColumns
    rw [h]
    exact ⟨by simp, by simp⟩
  · exact ⟨by decide, by decide⟩

/-- **C3 counterexample.** Kind Inner, strictness Any, right map holding key
1 (bucket offset 1), left block with two rows both keyed 1: the claim says
both left rows match and each emits exactly one output row; but the second
left row finds its bucket's used-flag already claimed by the first
(`setUsedOnce` fails), emits nothing, and its filter bit stays 0, so the
Inner filter keeps only 1 output row instead of 2. -/
theorem c3_counterexample :
    (joinRightColumns JoinKind.Inner JoinStrictness.Any false
        [[(1, [⟨0, 0⟩])]] [[(1, false)], [(1, false)]] []).filter.count true = 1
    ∧ (joinRightColumns JoinKind.Inner JoinStrictness.Any false
        [[(1, [⟨0, 0⟩])]] [[(1, false)], [(1, false)]] []).emitted
      = [some ⟨0, 0⟩]
    ∧ needFilterFeature JoinKind.Inner JoinStrictness.Any = true := by
  decide

/-- Concrete map used to witness `c3_any_join_amended`. -/
def c3exMap : BuildMap :=
  [(1, [⟨0, 0⟩, ⟨0, 1⟩]), (2, [⟨0, 2⟩])]

/-- Concrete left probe data (two duplicate keys, a miss, and a null). -/
def c3exRows : List (Nat × Bool) :=
  [(1, false), (1, false), (3, false), (2, true)]

theorem c3_witness :
    (∀ kv ∈ c3exMap, kv.2 ≠ [])
    ∧ (((joinRightColumns JoinKind.Left JoinStrictness.Any false [c3exMap]
          (c3exRows.map (fun p => [p])) []).emitted
            = c3exRows.map (leftAnyRowEmit c3exMap)
        ∧ (joinRightColumns JoinKind.Left JoinStrictness.Any false [c3exMap]
            (c3exRows.map (fun p => [p])) []).filter
          = c3exRows.map (fun p => !p.2 && (probeFind c3exMap p.1).isSome))
      ∧ ((joinRightColumns JoinKind.Inner JoinStrictness.Any false
            [[(1, [⟨0, 0⟩])]] [[(1, false)], [(1, false)]] []).filter
          = [true, false]
        ∧ (joinRightColumns JoinKind.Inner JoinStrictness.Any false
            [[(1, [⟨0, 0⟩])]] [[(1, false)], [(1, false)]] []).emitted
          = [some ⟨0, 0⟩])) :=
  ⟨by decide, c3_any_join_amended c3exMap (by decide) c3exRows []⟩

end HashJoinModel
